import Mathlib

/-!
A verification development for the brickbreaker physics synchronization layer
(`src/game/physics.rs`) and the fixed-timestep loop (`gfx-lib/src/window.rs`).

The Rust code is shallowly embedded: `f64` scalars are modelled as rationals
(the operations the claims exercise - addition, subtraction, scaling by fixed
constants, comparison - are exact at the magnitudes involved), entities are
natural-number ids, the `specs` component storages are lists of per-entity
records (a record is present in the list exactly when the entity is alive; a
`join` over `&entities` visits only alive entities), and the nphysics
body/collider arenas are association lists paired with a fresh-handle counter
(fresh handles never collide with live ones, as with generational arenas).
Rust panics (`Option::unwrap` on `None`) are modelled by `Option`-returning
run functions, `none` meaning the system panicked.  `println!`/`eprintln!`
reporting and solver mutations performed inside the send-loops are recorded in
an explicit event trace.
-/

namespace Brick

/-- Scalars: `f64` values modelled as rationals. -/
abbrev Scalar := ℚ

/-- 2-d vector of scalars (`nalgebra::Vector2<f64>`). -/
structure Vec2 where
  x : Scalar
  y : Scalar
deriving DecidableEq

/-- Vector-scalar multiplication, `v * c`. -/
def Vec2.smul (v : Vec2) (c : Scalar) : Vec2 := ⟨v.x * c, v.y * c⟩

/-- Componentwise vector addition. -/
def Vec2.add (v w : Vec2) : Vec2 := ⟨v.x + w.x, v.y + w.y⟩

/-- The zero vector (`Vector2::zeros()`). -/
def Vec2.zero : Vec2 := ⟨0, 0⟩

/-- A 2-d isometry (`Isometry2<f64>`): translation plus rotation angle. -/
structure Iso2 where
  translation : Vec2
  rotation : Scalar
deriving DecidableEq

/-- `nphysics2d::math::Velocity<f64>`: linear and angular parts. -/
structure Velocity where
  linear : Vec2
  angular : Scalar
deriving DecidableEq

/-- `nphysics2d::object::BodyStatus` (the variants used by the game). -/
inductive BodyStatus where
  | Static
  | Kinematic
  | Dynamic
deriving DecidableEq

/-- `PIXELS_PER_WORLD_UNIT` from `game/mod.rs` (`u32` = 32, used as `f64`). -/
def PIXELS_PER_WORLD_UNIT : Scalar := 32

/-- `WORLD_UNIT_RATIO` from `game/mod.rs`: `1.0 / PIXELS_PER_WORLD_UNIT`. -/
def WORLD_UNIT_RATIO : Scalar := 1 / 32

/-- `TransformComponent` (fields as used by `physics.rs` and described in the
spec: `position`/`last_position` in pixel units, plus `origin` and `scale`). -/
structure TransformComponent where
  position : Vec2
  last_position : Vec2
  origin : Vec2
  scale : Vec2
deriving DecidableEq

/-- `RigidbodyComponent` from `physics.rs`.  `handle` is `none` until the
outbound sync system allocates a solver body. -/
structure RigidbodyComponent where
  handle : Option Nat
  velocity : Velocity
  last_velocity : Velocity
  max_linear_velocity : Scalar
  mass : Scalar
  status : BodyStatus
deriving DecidableEq

/-- Collider shapes (the game only builds `Cuboid`s; the shape is opaque to
every claim). -/
inductive Shape where
  | cuboid (half_extents : Vec2)
deriving DecidableEq

/-- `ncollide2d::pipeline::CollisionGroups`: membership/filter bitmask pair. -/
structure CollisionGroups where
  membership : Nat
  filter : Nat
deriving DecidableEq

/-- `ColliderComponent` from `physics.rs`. -/
structure ColliderComponent where
  shape : Shape
  offset : Vec2
  collision_groups : CollisionGroups
  density : Scalar
deriving DecidableEq

/-- A solver rigid body, as configured through `RigidBodyDesc` in
`RigidbodySendPhysicsSystem::run`. -/
structure RigidBody where
  position : Iso2
  velocity : Velocity
  gravity_enabled : Bool
  status : BodyStatus
  mass : Scalar
  user_data : Nat
deriving DecidableEq

/-- An object stored in the solver body arena: the shared immovable ground
body, or a rigid body. -/
inductive BodyObj where
  | ground
  | rigid (rb : RigidBody)
deriving DecidableEq

/-- A solver collider, as configured through `ColliderDesc` in
`ColliderSendPhysicsSystem::run`. -/
structure Collider where
  shape : Shape
  density : Scalar
  position : Iso2
  margin : Scalar
  ccd_enabled : Bool
  collision_groups : CollisionGroups
  parent : Nat
  user_data : Nat
deriving DecidableEq

/-- Association-list lookup (first match), keyed by handle/entity id. -/
def alist_get {α : Type} : List (Nat × α) → Nat → Option α
  | [], _ => none
  | p :: rest, k => if p.1 = k then some p.2 else alist_get rest k

/-- Association-list erase: removes every entry with the given key. -/
def alist_erase {α : Type} : List (Nat × α) → Nat → List (Nat × α)
  | [], _ => []
  | p :: rest, k => if p.1 = k then alist_erase rest k else p :: alist_erase rest k

/-- `HashMap::insert`: store `v` under `k`, overwriting any previous entry. -/
def hm_insert {α : Type} (m : List (Nat × α)) (k : Nat) (v : α) : List (Nat × α) :=
  (k, v) :: alist_erase m k

/-- `HashMap::remove`: returns the removed value (if any) and the new map. -/
def hm_remove {α : Type} (m : List (Nat × α)) (k : Nat) : Option α × List (Nat × α) :=
  (alist_get m k, alist_erase m k)

/-- The solver body arena (`DefaultBodySet`): stored objects plus a counter
issuing fresh handles. -/
structure BodySet where
  next_handle : Nat
  objs : List (Nat × BodyObj)
deriving DecidableEq

/-- Arena insertion: the new object gets a fresh handle. -/
def BodySet.insert (s : BodySet) (b : BodyObj) : Nat × BodySet :=
  (s.next_handle, ⟨s.next_handle + 1, s.objs ++ [(s.next_handle, b)]⟩)

/-- Arena lookup. -/
def BodySet.get (s : BodySet) (h : Nat) : Option BodyObj := alist_get s.objs h

/-- Arena removal (`BodySet::remove`). -/
def BodySet.remove (s : BodySet) (h : Nat) : BodySet :=
  ⟨s.next_handle, alist_erase s.objs h⟩

/-- `BodySet::rigid_body`: resolves a handle to a rigid body; `none` when the
handle is absent or the object is not a rigid body (e.g. the ground). -/
def BodySet.rigid_body (s : BodySet) (h : Nat) : Option RigidBody :=
  match s.get h with
  | some (BodyObj.rigid rb) => some rb
  | _ => none

/-- In-place mutation of the rigid body stored at a handle (the model of
`rigid_body_mut` followed by a setter). -/
def BodySet.set_rigid (s : BodySet) (h : Nat) (rb : RigidBody) : BodySet :=
  ⟨s.next_handle, s.objs.map fun p => if p.1 = h then (p.1, BodyObj.rigid rb) else p⟩

/-- The solver collider arena (`DefaultColliderSet`). -/
structure ColliderSet where
  next_handle : Nat
  objs : List (Nat × Collider)
deriving DecidableEq

/-- Arena insertion: the new collider gets a fresh handle. -/
def ColliderSet.insert (s : ColliderSet) (c : Collider) : Nat × ColliderSet :=
  (s.next_handle, ⟨s.next_handle + 1, s.objs ++ [(s.next_handle, c)]⟩)

/-- Arena lookup. -/
def ColliderSet.get (s : ColliderSet) (h : Nat) : Option Collider := alist_get s.objs h

/-- Arena removal. -/
def ColliderSet.remove (s : ColliderSet) (h : Nat) : ColliderSet :=
  ⟨s.next_handle, alist_erase s.objs h⟩

/-- In-place mutation of the collider stored at a handle. -/
def ColliderSet.set_collider (s : ColliderSet) (h : Nat) (c : Collider) : ColliderSet :=
  ⟨s.next_handle, s.objs.map fun p => if p.1 = h then (p.1, c) else p⟩

/-- `PhysicsState` from `physics.rs`: the solver world plus the two
entity-to-handle index maps. -/
structure PhysicsState where
  lerp : Scalar
  bodies : BodySet
  colliders : ColliderSet
  gravity : Vec2
  ent_body_handles : List (Nat × Nat)
  ent_collider_handles : List (Nat × Nat)
  ground_body_handle : Nat
deriving DecidableEq

/-- `PhysicsState::new`: gravity `(0.0, -9.81)`, empty maps, a single ground
body inserted into the body arena. -/
def PhysicsState.new : PhysicsState :=
  let bodies0 : BodySet := ⟨0, []⟩
  let p := bodies0.insert BodyObj.ground
  { lerp := 0
    bodies := p.2
    colliders := ⟨0, []⟩
    gravity := ⟨0, -981/100⟩
    ent_body_handles := []
    ent_collider_handles := []
    ground_body_handle := p.1 }

/-- The rigid body built for an inserted `RigidbodyComponent`
(`RigidBodyDesc::new().translation(..).rotation(0.0).gravity_enabled(false)
.status(..).velocity(..).mass(..).user_data(ent).build()`; the
`max_linear_velocity` line is commented out in the source). -/
def buildRigidBody (transform : TransformComponent) (rigidbody : RigidbodyComponent)
    (ent : Nat) : RigidBody :=
  { position := ⟨transform.position.smul WORLD_UNIT_RATIO, 0⟩
    velocity := rigidbody.velocity
    gravity_enabled := false
    status := rigidbody.status
    mass := rigidbody.mass
    user_data := ent }

/-- One alive entity together with its (optional) components.  The component
store is the list of these records; an entity that has been deleted is simply
absent (a `specs` join over `&entities` visits only alive entities). -/
structure EntityRec where
  id : Nat
  transform : Option TransformComponent
  rigidbody : Option RigidbodyComponent
  collider : Option ColliderComponent
deriving DecidableEq

/-- The component store: the alive entities in index order. -/
abbrev World := List EntityRec

/-- `specs::ComponentEvent`, as read from a `FlaggedStorage` channel. -/
inductive ComponentEvent where
  | Inserted (id : Nat)
  | Modified (id : Nat)
  | Removed (id : Nat)
deriving DecidableEq

/-- `BitSet::add`: sets are modelled as duplicate-free lists of ids. -/
def bs_add (s : List Nat) (id : Nat) : List Nat :=
  if id ∈ s then s else s ++ [id]

/-- The `modified_transforms` bitset: transform `Inserted` and `Modified`
events both land in it, `Removed` events are ignored. -/
def processTransformEvents (events : List ComponentEvent) : List Nat :=
  events.foldl
    (fun s e =>
      match e with
      | ComponentEvent.Inserted id => bs_add s id
      | ComponentEvent.Modified id => bs_add s id
      | ComponentEvent.Removed _ => s)
    []

/-- Partition the rigidbody (or collider) event stream into the
inserted/modified/removed bitsets. -/
def processComponentEvents (events : List ComponentEvent) :
    List Nat × List Nat × List Nat :=
  events.foldl
    (fun s e =>
      match e with
      | ComponentEvent.Inserted id => (bs_add s.1 id, s.2.1, s.2.2)
      | ComponentEvent.Modified id => (s.1, bs_add s.2.1 id, s.2.2)
      | ComponentEvent.Removed id => (s.1, s.2.1, bs_add s.2.2 id))
    ([], [], [])

/-- Trace of the observable actions of the send systems: each constructor
mirrors one `println!`/`eprintln!` site or one direct solver mutation in
`RigidbodySendPhysicsSystem::run` / `ColliderSendPhysicsSystem::run`. -/
inductive SendEvent where
  | duplicateRemoved (id : Nat)
  | bodyInserted (id : Nat)
  | velocityPushed (id : Nat)
  | modifyMissing (id : Nat)
  | bodyRemoved (id : Nat)
  | removeMissing (id : Nat)
  | positionPushed (id : Nat)
  | pushMissing (id : Nat)
  | colliderDuplicateRemoved (id : Nat)
  | colliderInserted (id : Nat)
  | colliderModified (id : Nat)
  | colliderModifyMissing (id : Nat)
  | colliderRemoved (id : Nat)
  | colliderRemoveMissing (id : Nat)
  | colliderPositionPushed (id : Nat)
  | colliderPushMissing (id : Nat)
deriving DecidableEq

/-- One step of the "Handle inserted rigidbodies" loop: joined over
`(&entities, &transforms, &mut rigidbodies, &inserted_bodies)`.  A duplicate
mapping is removed (map entry and stale solver body) before the new body is
created, inserted, and recorded in the component and the map. -/
def rbInsertStep (ins : List Nat) (physics : PhysicsState) (e : EntityRec) :
    PhysicsState × EntityRec × List SendEvent :=
  match e.transform, e.rigidbody with
  | some transform, some rigidbody =>
    if e.id ∈ ins then
      let dup := hm_remove physics.ent_body_handles e.id
      let cleaned :=
        match dup.1 with
        | some rb_handle =>
          (physics.bodies.remove rb_handle, [SendEvent.duplicateRemoved e.id])
        | none => (physics.bodies, [])
      let rigid_body := buildRigidBody transform rigidbody e.id
      let ins2 := cleaned.1.insert (BodyObj.rigid rigid_body)
      ({ physics with
          bodies := ins2.2
          ent_body_handles := hm_insert dup.2 e.id ins2.1 },
        { e with rigidbody := some { rigidbody with handle := some ins2.1 } },
        cleaned.2 ++ [SendEvent.bodyInserted e.id])
    else (physics, e, [])
  | _, _ => (physics, e, [])

/-- The "Handle inserted rigidbodies" loop over the whole store.  It rebuilds
the store because the joined `&mut rigidbodies` storage is written (`handle`). -/
def rbInsertLoop (ins : List Nat) : World → PhysicsState →
    PhysicsState × World × List SendEvent
  | [], physics => (physics, [], [])
  | e :: rest, physics =>
    let st := rbInsertStep ins physics e
    let rec_rest := rbInsertLoop ins rest st.1
    (rec_rest.1, st.2.1 :: rec_rest.2.1, st.2.2 ++ rec_rest.2.2)

/-- The "Handle modified rigidbodies" loop, joined over
`(&entities, &rigidbodies, &modified_bodies)`.  A mapped entity's solver body
gets the component's velocity (`rigid_body_mut(..).unwrap()` - `none` models
the panic when the mapped handle does not resolve to a rigid body); an
unmapped entity is reported and skipped. -/
def rbModifiedLoop (mods : List Nat) : World → PhysicsState → List SendEvent →
    Option (PhysicsState × List SendEvent)
  | [], physics, trace => some (physics, trace)
  | e :: rest, physics, trace =>
    match e.rigidbody with
    | some rigidbody =>
      if e.id ∈ mods then
        match alist_get physics.ent_body_handles e.id with
        | some rb_handle =>
          match physics.bodies.rigid_body rb_handle with
          | some rb =>
            rbModifiedLoop mods rest
              { physics with
                  bodies := physics.bodies.set_rigid rb_handle
                    { rb with velocity := rigidbody.velocity } }
              (trace ++ [SendEvent.velocityPushed e.id])
          | none => none
        | none => rbModifiedLoop mods rest physics (trace ++ [SendEvent.modifyMissing e.id])
      else rbModifiedLoop mods rest physics trace
    | none => rbModifiedLoop mods rest physics trace

/-- The "Handle removed rigidbodies" loop, joined over
`(&entities, &removed_bodies)`.  A mapped entity's body and map entry are
removed; an unmapped one is reported and skipped, leaving the state as is. -/
def rbRemovedLoop (rems : List Nat) : World → PhysicsState → List SendEvent →
    PhysicsState × List SendEvent
  | [], physics, trace => (physics, trace)
  | e :: rest, physics, trace =>
    if e.id ∈ rems then
      match hm_remove physics.ent_body_handles e.id with
      | (some rb_handle, map1) =>
        rbRemovedLoop rems rest
          { physics with ent_body_handles := map1, bodies := physics.bodies.remove rb_handle }
          (trace ++ [SendEvent.bodyRemoved e.id])
      | (none, _) =>
        rbRemovedLoop rems rest physics (trace ++ [SendEvent.removeMissing e.id])
    else rbRemovedLoop rems rest physics trace

/-- The "Handle modified transforms" loop of the rigidbody send system, joined
over `(&entities, &transforms, &rigidbodies, &modified_transforms)`.  A mapped
entity's body position is set from the transform
(`set_position(Isometry2::new(position * WORLD_UNIT_RATIO, 0.0))`); `none`
models the `rigid_body_mut(..).unwrap()` panic. -/
def rbTransformLoop (mts : List Nat) : World → PhysicsState → List SendEvent →
    Option (PhysicsState × List SendEvent)
  | [], physics, trace => some (physics, trace)
  | e :: rest, physics, trace =>
    match e.transform, e.rigidbody with
    | some transform, some _ =>
      if e.id ∈ mts then
        match alist_get physics.ent_body_handles e.id with
        | some rb_handle =>
          match physics.bodies.rigid_body rb_handle with
          | some rb =>
            rbTransformLoop mts rest
              { physics with
                  bodies := physics.bodies.set_rigid rb_handle
                    { rb with position := ⟨transform.position.smul WORLD_UNIT_RATIO, 0⟩ } }
              (trace ++ [SendEvent.positionPushed e.id])
          | none => none
        | none => rbTransformLoop mts rest physics (trace ++ [SendEvent.pushMissing e.id])
      else rbTransformLoop mts rest physics trace
    | _, _ => rbTransformLoop mts rest physics trace

/-- The result of one `RigidbodySendPhysicsSystem::run`. -/
structure RbSendOut where
  physics : PhysicsState
  world : World
  trace : List SendEvent
deriving DecidableEq

/-- `RigidbodySendPhysicsSystem::run`: drain the two event channels into
bitsets, then run the inserted / modified / removed / modified-transform loops
in source order.  `none` models a panic inside a loop. -/
def rbSendRun (transform_events rigidbody_events : List ComponentEvent)
    (world : World) (physics : PhysicsState) : Option RbSendOut :=
  let modified_transforms := processTransformEvents transform_events
  let evs := processComponentEvents rigidbody_events
  let afterIns := rbInsertLoop evs.1 world physics
  match rbModifiedLoop evs.2.1 afterIns.2.1 afterIns.1 afterIns.2.2 with
  | none => none
  | some afterMod =>
    let afterRem := rbRemovedLoop evs.2.2 afterIns.2.1 afterMod.1 afterMod.2
    match rbTransformLoop modified_transforms afterIns.2.1 afterRem.1 afterRem.2 with
    | none => none
    | some afterTransform =>
      some ⟨afterTransform.1, afterIns.2.1, afterTransform.2⟩

/-- One step of the "Handle inserted colliders" loop, joined over
`(&entities, &transforms, &colliders, &inserted_colliders)`.  A duplicate
mapping is removed first; the collider is attached to the entity's rigidbody
(offset zero) when one is mapped, else to the ground body at the transform
position scaled into world units. -/
def colliderInsertStep (ins : List Nat) (physics : PhysicsState) (e : EntityRec) :
    PhysicsState × List SendEvent :=
  match e.transform, e.collider with
  | some transform, some collider =>
    if e.id ∈ ins then
      let dup := hm_remove physics.ent_collider_handles e.id
      let cleaned :=
        match dup.1 with
        | some collider_handle =>
          (physics.colliders.remove collider_handle,
            [SendEvent.colliderDuplicateRemoved e.id])
        | none => (physics.colliders, [])
      let parent :=
        match alist_get physics.ent_body_handles e.id with
        | some rb_handle => (rb_handle, Vec2.zero)
        | none => (physics.ground_body_handle, transform.position.smul WORLD_UNIT_RATIO)
      let newCollider : Collider :=
        { shape := collider.shape
          density := collider.density
          position := ⟨parent.2, 0⟩
          margin := 2/100
          ccd_enabled := true
          collision_groups := collider.collision_groups
          parent := parent.1
          user_data := e.id }
      let ins2 := cleaned.1.insert newCollider
      ({ physics with
          colliders := ins2.2
          ent_collider_handles := hm_insert dup.2 e.id ins2.1 },
        cleaned.2 ++ [SendEvent.colliderInserted e.id])
    else (physics, [])
  | _, _ => (physics, [])

/-- The "Handle inserted colliders" loop (the collider storage is read-only,
so the store is not rebuilt). -/
def colliderInsertLoop (ins : List Nat) : World → PhysicsState →
    PhysicsState × List SendEvent
  | [], physics => (physics, [])
  | e :: rest, physics =>
    let st := colliderInsertStep ins physics e
    let rec_rest := colliderInsertLoop ins rest st.1
    (rec_rest.1, st.2 ++ rec_rest.2)

/-- The "Handle modified colliders" loop: a placeholder that only reports
(mapped entities are logged, unmapped ones reported as missing). -/
def colliderModifiedLoop (mods : List Nat) : World → PhysicsState → List SendEvent →
    PhysicsState × List SendEvent
  | [], physics, trace => (physics, trace)
  | e :: rest, physics, trace =>
    match e.collider with
    | some _ =>
      if e.id ∈ mods then
        match alist_get physics.ent_collider_handles e.id with
        | some _ =>
          colliderModifiedLoop mods rest physics (trace ++ [SendEvent.colliderModified e.id])
        | none =>
          colliderModifiedLoop mods rest physics
            (trace ++ [SendEvent.colliderModifyMissing e.id])
      else colliderModifiedLoop mods rest physics trace
    | none => colliderModifiedLoop mods rest physics trace

/-- The "Handle removed colliders" loop, joined over
`(&entities, &removed_colliders)`. -/
def colliderRemovedLoop (rems : List Nat) : World → PhysicsState → List SendEvent →
    PhysicsState × List SendEvent
  | [], physics, trace => (physics, trace)
  | e :: rest, physics, trace =>
    if e.id ∈ rems then
      match hm_remove physics.ent_collider_handles e.id with
      | (some collider_handle, map1) =>
        colliderRemovedLoop rems rest
          { physics with
              ent_collider_handles := map1
              colliders := physics.colliders.remove collider_handle }
          (trace ++ [SendEvent.colliderRemoved e.id])
      | (none, _) =>
        colliderRemovedLoop rems rest physics
          (trace ++ [SendEvent.colliderRemoveMissing e.id])
    else colliderRemovedLoop rems rest physics trace

/-- The "Handle modified transforms" loop of the collider send system, joined
over `(&entities, &transforms, &colliders, &modified_transforms,
!&rigidbodies)` - entities owning a rigidbody are excluded.  `none` models the
`get_mut(..).unwrap()` panic when a mapped handle is missing from the arena. -/
def colliderTransformLoop (mts : List Nat) : World → PhysicsState → List SendEvent →
    Option (PhysicsState × List SendEvent)
  | [], physics, trace => some (physics, trace)
  | e :: rest, physics, trace =>
    match e.transform, e.collider, e.rigidbody with
    | some transform, some _, none =>
      if e.id ∈ mts then
        match alist_get physics.ent_collider_handles e.id with
        | some collider_handle =>
          match physics.colliders.get collider_handle with
          | some c =>
            colliderTransformLoop mts rest
              { physics with
                  colliders := physics.colliders.set_collider collider_handle
                    { c with position := ⟨transform.position.smul WORLD_UNIT_RATIO, 0⟩ } }
              (trace ++ [SendEvent.colliderPositionPushed e.id])
          | none => none
        | none =>
          colliderTransformLoop mts rest physics (trace ++ [SendEvent.colliderPushMissing e.id])
      else colliderTransformLoop mts rest physics trace
    | _, _, _ => colliderTransformLoop mts rest physics trace

/-- The result of one `ColliderSendPhysicsSystem::run` (all component storages
are read-only, so no store is returned). -/
structure ColliderSendOut where
  physics : PhysicsState
  trace : List SendEvent
deriving DecidableEq

/-- `ColliderSendPhysicsSystem::run`: drain events, then the inserted /
modified / removed / modified-transform loops in source order. -/
def colliderSendRun (transform_events collider_events : List ComponentEvent)
    (world : World) (physics : PhysicsState) : Option ColliderSendOut :=
  let modified_transforms := processTransformEvents transform_events
  let evs := processComponentEvents collider_events
  let afterIns := colliderInsertLoop evs.1 world physics
  let afterMod := colliderModifiedLoop evs.2.1 world afterIns.1 afterIns.2
  let afterRem := colliderRemovedLoop evs.2.2 world afterMod.1 afterMod.2
  match colliderTransformLoop modified_transforms world afterRem.1 afterRem.2 with
  | none => none
  | some afterTransform => some ⟨afterTransform.1, afterTransform.2⟩

/-- The result of one outbound sync pass (both send systems). -/
structure SyncOut where
  physics : PhysicsState
  world : World
  trace : List SendEvent
deriving DecidableEq

/-- Outbound sync: `RigidbodySendPhysicsSystem` then
`ColliderSendPhysicsSystem`, in dispatch order.  Both systems read the same
transform event stream through their own cursors, so they see the same list. -/
def outboundSync (transform_events rigidbody_events collider_events : List ComponentEvent)
    (world : World) (physics : PhysicsState) : Option SyncOut :=
  match rbSendRun transform_events rigidbody_events world physics with
  | none => none
  | some o1 =>
    match colliderSendRun transform_events collider_events o1.world o1.physics with
    | none => none
    | some o2 => some ⟨o2.physics, o1.world, o1.trace ++ o2.trace⟩

/-- `RigidbodyReceivePhysicsSystem::run` for one entity of the
`(&mut rigidbodies, &mut transforms)` join: `rigidbody.handle.unwrap()`
(`none` models the panic on an absent handle), then - when the handle
resolves to a rigid body - snapshot `last_position`/`last_velocity` and
overwrite `position` (scaled by `PIXELS_PER_WORLD_UNIT`) and `velocity` with
the solver's values; otherwise the entity is skipped untouched. -/
def receiveEntity (bodies : BodySet) (e : EntityRec) : Option EntityRec :=
  match e.rigidbody, e.transform with
  | some rigidbody, some transform =>
    match rigidbody.handle with
    | none => none
    | some h =>
      match bodies.rigid_body h with
      | some body =>
        some { e with
          transform := some { transform with
            last_position := transform.position
            position := body.position.translation.smul PIXELS_PER_WORLD_UNIT }
          rigidbody := some { rigidbody with
            last_velocity := rigidbody.velocity
            velocity := body.velocity } }
      | none => some e
  | _, _ => some e

/-- `RigidbodyReceivePhysicsSystem::run` over the whole store. -/
def receiveRun (bodies : BodySet) : World → Option World
  | [] => some []
  | e :: rest =>
    match receiveEntity bodies e with
    | none => none
    | some e2 =>
      match receiveRun bodies rest with
      | none => none
      | some rest2 => some (e2 :: rest2)

/-- `SIXTY_FPS_DT` from `window.rs`: the nominal tick duration, `1.0 / 60.0`
seconds. -/
def SIXTY_FPS_DT : Scalar := 1 / 60

/-- The delta-snapping block of `window.rs` (`run`, the
`snapped_delta_time_ms` binding): the measured frame time in whole
microseconds is converted to milliseconds, and replaced by `target_dt`
whenever `millis.abs() - target_dt < 0.0002`. -/
def snapDelta (frame_time_us : Int) : Scalar :=
  let millis : Scalar := (frame_time_us : Scalar) / 1000
  if |millis| - SIXTY_FPS_DT < 2 / 10000 then SIXTY_FPS_DT else millis

/-- `snapped_delta_time_seconds` from `window.rs`: the snapped value divided
by 1000, which is what is added to the accumulator. -/
def snappedDeltaSeconds (frame_time_us : Int) : Scalar :=
  snapDelta frame_time_us / 1000

/-- Modelled from the spec (claim C1 wording, not present as such in the
code): snap the measured delta, expressed in seconds, to the nominal tick
duration `1/60 s` exactly when it lies within `0.2 ms` of it; otherwise leave
it unchanged in consistent units. -/
def snapDeltaSpec (frame_time_us : Int) : Scalar :=
  let secs : Scalar := (frame_time_us : Scalar) / 1000000
  if |secs - SIXTY_FPS_DT| < 2 / 10000 then SIXTY_FPS_DT else secs

/-- The state the event-loop closure in `window.rs` threads between
iterations (the fields the fixed-timestep logic touches; durations are in
whole microseconds). -/
structure LoopState where
  accumulator : Scalar
  time : Scalar
  ticks : Nat
  fps_timer : Int
  fps_counter : Nat
  fps : Nat
deriving DecidableEq

/-- `one_second` as a microsecond count. -/
def ONE_SECOND_US : Int := 1000000

/-- The `while accumulator >= target_dt` loop body of `window.rs`: each pass
runs one tick, subtracting one tick duration from the accumulator and
incrementing `time`, `ticks` and `fps_counter`. -/
def tickWhile (accumulator time : Scalar) (ticks fps_counter : Nat) :
    Scalar × Scalar × Nat × Nat :=
  if h : SIXTY_FPS_DT ≤ accumulator then
    tickWhile (accumulator - SIXTY_FPS_DT) (time + SIXTY_FPS_DT) (ticks + 1) (fps_counter + 1)
  else
    (accumulator, time, ticks, fps_counter)
termination_by (⌊accumulator * 60⌋).toNat
decreasing_by
  have h60 : (1 : Scalar) ≤ accumulator * 60 := by
    have := mul_le_mul_of_nonneg_right h (by norm_num : (0 : Scalar) ≤ 60)
    simpa [SIXTY_FPS_DT] using this
  have hfloor : 1 ≤ ⌊accumulator * 60⌋ := by
    exact_mod_cast Int.le_floor.mpr (by exact_mod_cast h60)
  have hsub : (accumulator - SIXTY_FPS_DT) * 60 = accumulator * 60 - 1 := by
    simp [SIXTY_FPS_DT]; ring
  have hfs : ⌊(accumulator - SIXTY_FPS_DT) * 60⌋ = ⌊accumulator * 60⌋ - 1 := by
    rw [hsub]
    exact_mod_cast Int.floor_sub_int (accumulator * 60) 1
  rw [hfs]
  omega

/-- One `MainEventsCleared` iteration of the fixed-timestep loop in
`window.rs`, driven by the measured frame time in whole microseconds: snap
the delta, accumulate it, drain whole ticks, then update the rolling
ticks-per-second figures. -/
def loopIter (s : LoopState) (frame_time_us : Int) : LoopState :=
  let acc := s.accumulator + snappedDeltaSeconds frame_time_us
  let drained := tickWhile acc s.time s.ticks s.fps_counter
  let fps_timer2 := s.fps_timer + frame_time_us
  if ONE_SECOND_US ≤ fps_timer2 then
    { accumulator := drained.1
      time := drained.2.1
      ticks := drained.2.2.1
      fps_timer := 0
      fps_counter := 0
      fps := drained.2.2.2 }
  else
    { accumulator := drained.1
      time := drained.2.1
      ticks := drained.2.2.1
      fps_timer := fps_timer2
      fps_counter := drained.2.2.2
      fps := s.fps }

/-- The loop state at startup: zero accumulator, zero ticks. -/
def loopStart : LoopState :=
  { accumulator := 0, time := 0, ticks := 0, fps_timer := 0, fps_counter := 0, fps := 0 }

/-- The state after each iteration, for a given run of measured frame times. -/
def loopTrajectoryFrom (s : LoopState) : List Int → List LoopState
  | [] => []
  | d :: rest =>
    let s2 := loopIter s d
    s2 :: loopTrajectoryFrom s2 rest

/-- The per-iteration state trajectory of a run fed the given sequence of
elapsed wall-clock deltas (in whole microseconds), from startup. -/
def loopTrajectory (deltas : List Int) : List LoopState :=
  loopTrajectoryFrom loopStart deltas

/-- Modelled from the spec: the per-step gravity integration of the external
solver (spec 4.1, "gravity integration"; the solver itself is an external
dependency, not part of this repository).  World gravity accelerates a body
for one tick exactly when the body's gravity flag is enabled. -/
def integrateGravity (gravity : Vec2) (dt : Scalar) (b : RigidBody) : RigidBody :=
  if b.gravity_enabled then
    { b with velocity := { b.velocity with linear := b.velocity.linear.add (gravity.smul dt) } }
  else b

/-- C9: the solver body built for an inserted rigidbody does not depend on
the component's `max_linear_velocity` field - two components identical except
for that field yield identical solver bodies (the
`.max_linear_velocity(..)` call is commented out in the source). -/
theorem solver_body_ignores_max_linear_velocity
    (transform : TransformComponent) (rigidbody : RigidbodyComponent)
    (ent : Nat) (v : Scalar) :
    buildRigidBody transform { rigidbody with max_linear_velocity := v } ent =
      buildRigidBody transform rigidbody ent := rfl

/-- C10: the mechanical world is created with gravity `(0.0, -9.81)`, yet
every solver body the rigidbody send system builds has gravity disabled, so
gravity integration leaves such a body unchanged across any number of steps. -/
theorem solver_bodies_gravity_disabled :
    (PhysicsState.new).gravity = ⟨0, -981/100⟩ ∧
    (∀ transform rigidbody ent,
      (buildRigidBody transform rigidbody ent).gravity_enabled = false) ∧
    (∀ transform rigidbody ent (g : Vec2) (dt : Scalar) (n : Nat),
      (integrateGravity g dt)^[n] (buildRigidBody transform rigidbody ent) =
        buildRigidBody transform rigidbody ent) := by
  refine ⟨rfl, fun _ _ _ => rfl, fun transform rigidbody ent g dt n => ?_⟩
  apply Function.iterate_fixed
  simp [integrateGravity, buildRigidBody]

/-- C1: the delta-snapping code is wrong on its own terms.  A measured frame
time of 16667 microseconds is within 0.2 ms of the nominal tick duration
(spec-side snap applies and yields exactly `1/60 s`), but the code compares a
milliseconds value against the seconds-valued `target_dt` without taking the
absolute difference, so it does not snap and feeds `16667/1000000 s` - not
`1/60 s` - to the accumulator; a 10 microsecond frame time, far from `1/60 s`,
is "snapped" instead, and then contributes `1/60000 s`. -/
theorem snap_delta_units_mismatch :
    snapDeltaSpec 16667 = SIXTY_FPS_DT ∧
    snappedDeltaSeconds 16667 = 16667 / 1000000 ∧
    snappedDeltaSeconds 16667 ≠ SIXTY_FPS_DT ∧
    snapDelta 10 = SIXTY_FPS_DT ∧
    snappedDeltaSeconds 10 = SIXTY_FPS_DT / 1000 := by
  refine ⟨?_, ?_, ?_, ?_, ?_⟩ <;>
    norm_num [snapDeltaSpec, snappedDeltaSeconds, snapDelta, SIXTY_FPS_DT, abs]

/-- C8: the fixed-timestep loop is deterministic in the sequence of measured
wall-clock deltas - two runs fed the same delta sequence have identical tick
counters and accumulators after every iteration (the trajectory is a pure
function of the deltas; no other source of real time enters `loopIter`). -/
theorem fixed_timestep_deterministic (ds1 ds2 : List Int) (h : ds1 = ds2) :
    (loopTrajectory ds1).map (fun s => (s.ticks, s.accumulator)) =
      (loopTrajectory ds2).map (fun s => (s.ticks, s.accumulator)) := by rw [h]

/-- Witness for C8 at a concrete three-frame run. -/
theorem fixed_timestep_deterministic_witness :
    ([16667, 33000, 5] : List Int) = [16667, 33000, 5] ∧
    (loopTrajectory [16667, 33000, 5]).map (fun s => (s.ticks, s.accumulator)) =
      (loopTrajectory [16667, 33000, 5]).map (fun s => (s.ticks, s.accumulator)) :=
  ⟨rfl, fixed_timestep_deterministic [16667, 33000, 5] [16667, 33000, 5] rfl⟩

/-- A first outbound-sync run used to demonstrate idempotence: one entity
with a fresh rigidbody and transform, both inserted this tick. -/
def sampleSyncOut : SyncOut :=
  (outboundSync [ComponentEvent.Inserted 0] [ComponentEvent.Inserted 0] []
    [⟨0, some ⟨⟨224, 256⟩, ⟨3, 4⟩, ⟨0, 0⟩, ⟨1, 1⟩⟩,
        some ⟨none, ⟨⟨1, 2⟩, 0⟩, ⟨⟨0, 0⟩, 0⟩, 0, 1, BodyStatus.Dynamic⟩, none⟩]
    PhysicsState.new).get rfl

/-- Well-formedness of the body bookkeeping: every mapped handle and every
arena handle is below the fresh-handle counter, and no two entities map to
the same handle.  `PhysicsState::new` satisfies it, and the send systems
preserve it. -/
def PhysWF (ps : PhysicsState) : Prop :=
  (∀ p ∈ ps.ent_body_handles, p.2 < ps.bodies.next_handle) ∧
  List.Pairwise (fun p q => p.2 ≠ q.2) ps.ent_body_handles ∧
  (∀ p ∈ ps.bodies.objs, p.1 < ps.bodies.next_handle)

/-- A sample transform, for concrete runs. -/
def sampleTransform : TransformComponent := ⟨⟨224, 256⟩, ⟨3, 4⟩, ⟨0, 0⟩, ⟨1, 1⟩⟩

/-- A sample solver rigid body at translation `(7, 8)`, velocity `(9, 10)`. -/
def sampleBody : RigidBody := ⟨⟨⟨7, 8⟩, 0⟩, ⟨⟨9, 10⟩, 0⟩, false, BodyStatus.Dynamic, 1, 0⟩

/-- A sample body arena: the ground at handle 0, `sampleBody` at handle 1. -/
def sampleBodies : BodySet := ⟨2, [(0, BodyObj.ground), (1, BodyObj.rigid sampleBody)]⟩

/-- A physics state with a stale mapping for the dead entity 5: its body is
still in the arena and mapped, but entity 5 is no longer in the store. -/
def stalePhys : PhysicsState :=
  { PhysicsState.new with
      bodies := ⟨2, [(0, BodyObj.ground), (1, BodyObj.rigid sampleBody)]⟩
      ent_body_handles := [(5, 1)] }

/-- A rigidbody component resolving to handle 1. -/
def sampleRb1 : RigidbodyComponent := ⟨some 1, ⟨⟨1, 2⟩, 0⟩, ⟨⟨0, 0⟩, 0⟩, 0, 1, BodyStatus.Dynamic⟩

/-- A rigidbody component whose handle 99 resolves to nothing. -/
def sampleRb99 : RigidbodyComponent := ⟨some 99, ⟨⟨0, 0⟩, 0⟩, ⟨⟨0, 0⟩, 0⟩, 0, 1, BodyStatus.Static⟩

/-- A rigidbody component whose handle is still `None`. -/
def sampleRbNone : RigidbodyComponent := ⟨none, ⟨⟨0, 0⟩, 0⟩, ⟨⟨0, 0⟩, 0⟩, 0, 1, BodyStatus.Dynamic⟩

/-- Entity 0, carrying `sampleTransform` and `sampleRb1`. -/
def sampleEnt0 : EntityRec := ⟨0, some sampleTransform, some sampleRb1, none⟩

/-- Entity 1, whose rigidbody handle does not resolve. -/
def sampleEnt1 : EntityRec := ⟨1, some ⟨⟨5, 6⟩, ⟨0, 0⟩, ⟨0, 0⟩, ⟨1, 1⟩⟩, some sampleRb99, none⟩

/-- A physics state in which the alive entity 0 is mapped to body handle 1. -/
def mappedPhys : PhysicsState :=
  { PhysicsState.new with
      bodies := ⟨2, [(0, BodyObj.ground), (1, BodyObj.rigid sampleBody)]⟩
      ent_body_handles := [(0, 1)] }

/-- The outbound sync pass that removes entity 0's rigidbody. -/
def removalSyncOut : SyncOut :=
  (outboundSync [] [ComponentEvent.Removed 0] [] [sampleEnt0] mappedPhys).get rfl

/-- The receive step on an entity whose handle resolves: snapshot, then
overwrite with the solver's authoritative values. -/
lemma receiveEntity_resolves (bodies : BodySet) (e : EntityRec)
    (transform : TransformComponent) (rigidbody : RigidbodyComponent)
    (h : Nat) (body : RigidBody)
    (ht : e.transform = some transform) (hr : e.rigidbody = some rigidbody)
    (hh : rigidbody.handle = some h) (hb : bodies.rigid_body h = some body) :
    receiveEntity bodies e = some { e with
      transform := some { transform with
        last_position := transform.position
        position := body.position.translation.smul PIXELS_PER_WORLD_UNIT }
      rigidbody := some { rigidbody with
        last_velocity := rigidbody.velocity
        velocity := body.velocity } } := by
  simp [receiveEntity, ht, hr, hh, hb]

/-- The receive step on an entity whose `Some` handle does not resolve to a
rigid body: the entity is returned untouched. -/
lemma receiveEntity_skip (bodies : BodySet) (e : EntityRec)
    (hsome : ∀ rigidbody, e.rigidbody = some rigidbody → e.transform.isSome = true →
      rigidbody.handle.isSome = true)
    (hnores : ∀ rigidbody h, e.rigidbody = some rigidbody → rigidbody.handle = some h →
      bodies.rigid_body h = none) :
    receiveEntity bodies e = some e := by
  cases hr : e.rigidbody with
  | none => simp [receiveEntity, hr]
  | some rigidbody =>
    cases ht : e.transform with
    | none => simp [receiveEntity, hr, ht]
    | some transform =>
      have h1 := hsome rigidbody hr (by simp [ht])
      cases hh : rigidbody.handle with
      | none => rw [hh] at h1; simp at h1
      | some h =>
        have h2 := hnores rigidbody h hr hh
        simp [receiveEntity, hr, ht, hh, h2]

/-- The receive step never panics on an entity whose handle field is `Some`
(or which lacks one of the two joined components). -/
lemma receiveEntity_isSome (bodies : BodySet) (e : EntityRec)
    (hsome : ∀ rigidbody, e.rigidbody = some rigidbody → e.transform.isSome = true →
      rigidbody.handle.isSome = true) :
    (receiveEntity bodies e).isSome = true := by
  cases hr : e.rigidbody with
  | none => simp [receiveEntity, hr]
  | some rigidbody =>
    cases ht : e.transform with
    | none => simp [receiveEntity, hr, ht]
    | some transform =>
      have h1 := hsome rigidbody hr (by simp [ht])
      cases hh : rigidbody.handle with
      | none => rw [hh] at h1; simp at h1
      | some h =>
        cases hb : bodies.rigid_body h <;> simp [receiveEntity, hr, ht, hh, hb]

/-- C2 (counterexample): on a store holding one entity with a Transform and a
Rigidbody whose `handle` is still `None`, the inbound sync system panics
(`rigidbody.handle.unwrap()`) instead of skipping the entity silently and
leaving its components unchanged. -/
theorem receive_none_handle_panics :
    receiveRun sampleBodies [⟨0, some sampleTransform, some sampleRbNone, none⟩] = none := rfl

/-- C2 (amended): provided every entity joined by the inbound sync system has
a `Some` rigidbody handle, the run completes without a panic, every entity is
processed exactly once in order, and any entity whose handle does not resolve
to a solver body is skipped with its components untouched and no error
raised.  (As stated the claim is false: an absent (`None`) handle makes the
system panic rather than skip, see the counterexample.) -/
theorem receive_skips_unresolved_amended (bodies : BodySet) (w : World)
    (hall : ∀ e ∈ w, ∀ rigidbody, e.rigidbody = some rigidbody →
      e.transform.isSome = true → rigidbody.handle.isSome = true) :
    ∃ w2, receiveRun bodies w = some w2 ∧
      List.Forall₂ (fun a b => receiveEntity bodies a = some b) w w2 ∧
      ∀ e ∈ w, (∀ rigidbody h, e.rigidbody = some rigidbody → rigidbody.handle = some h →
          bodies.rigid_body h = none) →
        receiveEntity bodies e = some e := by
  induction w with
  | nil => exact ⟨[], rfl, List.Forall₂.nil, by simp⟩
  | cons a rest ih =>
    obtain ⟨rest2, hrest, hforall, hskip⟩ :=
      ih (fun e he => hall e (List.mem_cons_of_mem a he))
    have ha := receiveEntity_isSome bodies a (hall a (List.mem_cons_self a rest))
    cases haEq : receiveEntity bodies a with
    | none => rw [haEq] at ha; simp at ha
    | some a2 =>
      refine ⟨a2 :: rest2, ?_, List.Forall₂.cons haEq hforall, ?_⟩
      · simp only [receiveRun, haEq, hrest]
      · intro e he hnores
        rcases List.mem_cons.mp he with heq | hmem
        · subst heq
          exact receiveEntity_skip bodies e (hall e (List.mem_cons_self e rest)) hnores
        · exact hskip e hmem hnores

/-- Every rigidbody-bearing entity of the two-entity sample store has a `Some`
handle. -/
lemma sample_world_handles_some :
    ∀ e ∈ ([sampleEnt0, sampleEnt1] : World), ∀ rigidbody,
      e.rigidbody = some rigidbody → e.transform.isSome = true →
        rigidbody.handle.isSome = true := by
  intro e he rigidbody hr ht
  simp only [List.mem_cons, List.not_mem_nil, or_false] at he
  rcases he with rfl | rfl <;>
    · simp only [sampleEnt0, sampleEnt1, sampleRb1, sampleRb99] at hr
      injection hr with h2
      subst h2
      rfl

/-- Witness for the amended C2: a store with one resolving entity (handle 1)
and one entity whose handle 99 does not resolve; the run completes and the
unresolvable entity is returned untouched. -/
theorem receive_skips_unresolved_witness :
    (∀ e ∈ ([sampleEnt0, sampleEnt1] : World), ∀ rigidbody,
        e.rigidbody = some rigidbody → e.transform.isSome = true →
          rigidbody.handle.isSome = true) ∧
    ∃ w2, receiveRun sampleBodies [sampleEnt0, sampleEnt1] = some w2 ∧
      List.Forall₂ (fun a b => receiveEntity sampleBodies a = some b) [sampleEnt0, sampleEnt1] w2 ∧
      ∀ e ∈ ([sampleEnt0, sampleEnt1] : World),
        (∀ rigidbody h, e.rigidbody = some rigidbody → rigidbody.handle = some h →
          sampleBodies.rigid_body h = none) →
        receiveEntity sampleBodies e = some e :=
  ⟨sample_world_handles_some,
   receive_skips_unresolved_amended _ _ sample_world_handles_some⟩

/-- C6: for an entity whose handle resolves to a solver body, the inbound
sync system snapshots `last_position`/`last_velocity` from the current
`position`/`velocity` and then overwrites `position` with the body's
translation scaled by `PIXELS_PER_WORLD_UNIT` and `velocity` with the body's
velocity. -/
theorem receive_snapshots_then_writes
    (bodies : BodySet) (pre post : World) (e : EntityRec) (w2 : World)
    (transform : TransformComponent) (rigidbody : RigidbodyComponent)
    (h : Nat) (body : RigidBody)
    (ht : e.transform = some transform) (hr : e.rigidbody = some rigidbody)
    (hh : rigidbody.handle = some h) (hb : bodies.rigid_body h = some body)
    (hrun : receiveRun bodies (pre ++ e :: post) = some w2) :
    ∃ pre2 post2, w2 = pre2 ++
      { e with
        transform := some { transform with
          last_position := transform.position
          position := body.position.translation.smul PIXELS_PER_WORLD_UNIT }
        rigidbody := some { rigidbody with
          last_velocity := rigidbody.velocity
          velocity := body.velocity } } :: post2 ∧
      pre2.length = pre.length := by
  induction pre generalizing w2 with
  | nil =>
    simp only [List.nil_append, receiveRun,
      receiveEntity_resolves bodies e transform rigidbody h body ht hr hh hb] at hrun
    cases hrest : receiveRun bodies post with
    | none => rw [hrest] at hrun; cases hrun
    | some rest2 =>
      rw [hrest] at hrun
      exact ⟨[], rest2, by simpa using hrun.symm, rfl⟩
  | cons a rest ih =>
    rw [List.cons_append] at hrun
    simp only [receiveRun] at hrun
    cases ha : receiveEntity bodies a with
    | none => rw [ha] at hrun; cases hrun
    | some a2 =>
      rw [ha] at hrun
      cases hrest : receiveRun bodies (rest ++ e :: post) with
      | none => rw [hrest] at hrun; cases hrun
      | some rest2 =>
        rw [hrest] at hrun
        obtain ⟨pre2, post2, heq, hlen⟩ := ih rest2 hrest
        cases hrun
        exact ⟨a2 :: pre2, post2, by simp [heq], by simp [hlen]⟩

/-- Witness for C6: a concrete resolving entity; the post-run store holds the
snapshotted previous values and the solver's position (scaled by 32) and
velocity. -/
theorem receive_snapshots_then_writes_witness :
    ∃ w2, receiveRun sampleBodies [sampleEnt0] = some w2 ∧
      ∃ pre2 post2, w2 = pre2 ++
        ({ sampleEnt0 with
          transform := some { sampleTransform with
            last_position := sampleTransform.position
            position := sampleBody.position.translation.smul PIXELS_PER_WORLD_UNIT }
          rigidbody := some { sampleRb1 with
            last_velocity := sampleRb1.velocity
            velocity := sampleBody.velocity } }) :: post2 ∧
        pre2.length = ([] : World).length := by
  refine ⟨(receiveEntity sampleBodies sampleEnt0).get rfl :: [], rfl, ?_⟩
  exact receive_snapshots_then_writes sampleBodies [] [] sampleEnt0 _
    sampleTransform sampleRb1 1 sampleBody rfl rfl rfl rfl rfl

/-- With an empty inserted bitset the insert step touches nothing. -/
lemma rbInsertStep_nil (physics : PhysicsState) (e : EntityRec) :
    rbInsertStep [] physics e = (physics, e, []) := by
  rcases e with ⟨id, t, r, c⟩
  cases t <;> cases r <;> simp [rbInsertStep]

/-- With an empty inserted bitset the insert loop is the identity. -/
lemma rbInsertLoop_nil (w : World) (physics : PhysicsState) :
    rbInsertLoop [] w physics = (physics, w, []) := by
  induction w with
  | nil => rfl
  | cons e rest ih => simp [rbInsertLoop, rbInsertStep_nil, ih]

/-- With an empty modified bitset the modified loop is the identity. -/
lemma rbModifiedLoop_nil (w : World) (physics : PhysicsState) (trace : List SendEvent) :
    rbModifiedLoop [] w physics trace = some (physics, trace) := by
  induction w with
  | nil => rfl
  | cons e rest ih =>
    rcases e with ⟨id, t, r, c⟩
    cases r <;> simp [rbModifiedLoop, ih]

/-- With an empty removed bitset the removed loop is the identity. -/
lemma rbRemovedLoop_nil (w : World) (physics : PhysicsState) (trace : List SendEvent) :
    rbRemovedLoop [] w physics trace = (physics, trace) := by
  induction w with
  | nil => rfl
  | cons e rest ih => simp [rbRemovedLoop, ih]

/-- With an empty modified-transform bitset the transform loop is the
identity. -/
lemma rbTransformLoop_nil (w : World) (physics : PhysicsState) (trace : List SendEvent) :
    rbTransformLoop [] w physics trace = some (physics, trace) := by
  induction w with
  | nil => rfl
  | cons e rest ih =>
    rcases e with ⟨id, t, r, c⟩
    cases t <;> cases r <;> simp [rbTransformLoop, ih]

/-- A rigidbody send run that drains no events changes nothing. -/
lemma rbSendRun_nil (w : World) (physics : PhysicsState) :
    rbSendRun [] [] w physics = some ⟨physics, w, []⟩ := by
  simp [rbSendRun, processTransformEvents, processComponentEvents,
    rbInsertLoop_nil, rbModifiedLoop_nil, rbRemovedLoop_nil, rbTransformLoop_nil]

/-- With an empty inserted bitset the collider insert step touches nothing. -/
lemma colliderInsertStep_nil (physics : PhysicsState) (e : EntityRec) :
    colliderInsertStep [] physics e = (physics, []) := by
  rcases e with ⟨id, t, r, c⟩
  cases t <;> cases c <;> simp [colliderInsertStep]

/-- With an empty inserted bitset the collider insert loop is the identity. -/
lemma colliderInsertLoop_nil (w : World) (physics : PhysicsState) :
    colliderInsertLoop [] w physics = (physics, []) := by
  induction w with
  | nil => rfl
  | cons e rest ih => simp [colliderInsertLoop, colliderInsertStep_nil, ih]

/-- With an empty modified bitset the collider modified loop is the identity. -/
lemma colliderModifiedLoop_nil (w : World) (physics : PhysicsState) (trace : List SendEvent) :
    colliderModifiedLoop [] w physics trace = (physics, trace) := by
  induction w with
  | nil => rfl
  | cons e rest ih =>
    rcases e with ⟨id, t, r, c⟩
    cases c <;> simp [colliderModifiedLoop, ih]

/-- With an empty removed bitset the collider removed loop is the identity. -/
lemma colliderRemovedLoop_nil (w : World) (physics : PhysicsState) (trace : List SendEvent) :
    colliderRemovedLoop [] w physics trace = (physics, trace) := by
  induction w with
  | nil => rfl
  | cons e rest ih => simp [colliderRemovedLoop, ih]

/-- With an empty modified-transform bitset the collider transform loop is the
identity. -/
lemma colliderTransformLoop_nil (w : World) (physics : PhysicsState) (trace : List SendEvent) :
    colliderTransformLoop [] w physics trace = some (physics, trace) := by
  induction w with
  | nil => rfl
  | cons e rest ih =>
    rcases e with ⟨id, t, r, c⟩
    cases t <;> cases r <;> cases c <;> simp [colliderTransformLoop, ih]

/-- A collider send run that drains no events changes nothing. -/
lemma colliderSendRun_nil (w : World) (physics : PhysicsState) :
    colliderSendRun [] [] w physics = some ⟨physics, []⟩ := by
  simp [colliderSendRun, processTransformEvents, processComponentEvents,
    colliderInsertLoop_nil, colliderModifiedLoop_nil, colliderRemovedLoop_nil,
    colliderTransformLoop_nil]

/-- An outbound sync pass that drains no events changes nothing. -/
lemma outboundSync_nil (w : World) (physics : PhysicsState) :
    outboundSync [] [] [] w physics = some ⟨physics, w, []⟩ := by
  simp [outboundSync, rbSendRun_nil, colliderSendRun_nil]

/-- C7: after a completed outbound sync pass, running both send systems again
with no new component change events drained leaves the entity-to-body and
entity-to-collider handle maps exactly as the first pass left them (indeed it
leaves the whole physics state and store untouched). -/
theorem outbound_sync_idempotent
    (transform_events rigidbody_events collider_events : List ComponentEvent)
    (world : World) (physics : PhysicsState) (o1 : SyncOut)
    (_h1 : outboundSync transform_events rigidbody_events collider_events world physics =
      some o1) :
    ∃ o2, outboundSync [] [] [] o1.world o1.physics = some o2 ∧
      o2.physics.ent_body_handles = o1.physics.ent_body_handles ∧
      o2.physics.ent_collider_handles = o1.physics.ent_collider_handles :=
  ⟨⟨o1.physics, o1.world, []⟩, outboundSync_nil o1.world o1.physics, rfl, rfl⟩

/-- Witness for C7: a first pass that inserts a rigidbody for entity 0, then
an event-free second pass, which leaves the handle maps unchanged. -/
theorem outbound_sync_idempotent_witness :
    outboundSync [ComponentEvent.Inserted 0] [ComponentEvent.Inserted 0] []
      [⟨0, some ⟨⟨224, 256⟩, ⟨3, 4⟩, ⟨0, 0⟩, ⟨1, 1⟩⟩,
          some ⟨none, ⟨⟨1, 2⟩, 0⟩, ⟨⟨0, 0⟩, 0⟩, 0, 1, BodyStatus.Dynamic⟩, none⟩]
      PhysicsState.new = some sampleSyncOut ∧
    ∃ o2, outboundSync [] [] [] sampleSyncOut.world sampleSyncOut.physics = some o2 ∧
      o2.physics.ent_body_handles = sampleSyncOut.physics.ent_body_handles ∧
      o2.physics.ent_collider_handles = sampleSyncOut.physics.ent_collider_handles :=
  ⟨rfl,
   outbound_sync_idempotent [ComponentEvent.Inserted 0] [ComponentEvent.Inserted 0] []
     [⟨0, some ⟨⟨224, 256⟩, ⟨3, 4⟩, ⟨0, 0⟩, ⟨1, 1⟩⟩,
         some ⟨none, ⟨⟨1, 2⟩, 0⟩, ⟨⟨0, 0⟩, 0⟩, 0, 1, BodyStatus.Dynamic⟩, none⟩]
     PhysicsState.new sampleSyncOut rfl⟩

/-- The insert step only logs duplicate removals and insertions. -/
lemma rbInsertStep_trace (ins : List Nat) (ps : PhysicsState) (e : EntityRec)
    (ev : SendEvent) (hev : ev ∈ (rbInsertStep ins ps e).2.2) :
    ev = SendEvent.duplicateRemoved e.id ∨ ev = SendEvent.bodyInserted e.id := by
  rcases e with ⟨id, t, r, c⟩
  cases t with
  | none => simp [rbInsertStep] at hev
  | some transform =>
    cases r with
    | none => simp [rbInsertStep] at hev
    | some rigidbody =>
      by_cases hid : id ∈ ins
      · simp only [rbInsertStep, hid, if_true, hm_remove] at hev
        cases halist : alist_get ps.ent_body_handles id <;>
          simp [halist, List.mem_append] at hev <;> tauto
      · simp [rbInsertStep, hid] at hev

/-- The insert loop only logs duplicate removals and insertions. -/
lemma rbInsertLoop_trace (ins : List Nat) :
    ∀ (w : World) (ps : PhysicsState) (ev : SendEvent),
      ev ∈ (rbInsertLoop ins w ps).2.2 →
      ∃ id, ev = SendEvent.duplicateRemoved id ∨ ev = SendEvent.bodyInserted id
  | [], _, ev => by simp [rbInsertLoop]
  | e :: rest, ps, ev => by
    intro hev
    simp only [rbInsertLoop, List.mem_append] at hev
    rcases hev with hstep | hrest
    · exact ⟨e.id, rbInsertStep_trace ins ps e ev hstep⟩
    · exact rbInsertLoop_trace ins rest (rbInsertStep ins ps e).1 ev hrest

/-- The modified loop only appends velocity pushes and missing-mapping
reports to the trace. -/
lemma rbModifiedLoop_trace (mods : List Nat) :
    ∀ (w : World) (ps : PhysicsState) (tr : List SendEvent)
      (p2 : PhysicsState) (t2 : List SendEvent),
      rbModifiedLoop mods w ps tr = some (p2, t2) →
      ∀ ev ∈ t2, ev ∈ tr ∨
        ∃ id, ev = SendEvent.velocityPushed id ∨ ev = SendEvent.modifyMissing id
  | [], ps, tr, p2, t2 => by
    intro h ev hev
    simp only [rbModifiedLoop, Option.some.injEq, Prod.mk.injEq] at h
    rw [← h.2] at hev
    exact Or.inl hev
  | e :: rest, ps, tr, p2, t2 => by
    intro h ev hev
    rcases e with ⟨id, t, r, c⟩
    cases r with
    | none =>
      simp only [rbModifiedLoop] at h
      exact rbModifiedLoop_trace mods rest ps tr p2 t2 h ev hev
    | some rigidbody =>
      by_cases hid : id ∈ mods
      · simp only [rbModifiedLoop, hid, if_true] at h
        cases halist : alist_get ps.ent_body_handles id with
        | none =>
          simp only [halist] at h
          rcases rbModifiedLoop_trace mods rest ps _ p2 t2 h ev hev with hin | hnew
          · rcases List.mem_append.mp hin with hin2 | hin2
            · exact Or.inl hin2
            · simp at hin2
              exact Or.inr ⟨id, Or.inr hin2⟩
          · exact Or.inr hnew
        | some rb_handle =>
          simp only [halist] at h
          cases hrb : ps.bodies.rigid_body rb_handle with
          | none => simp only [hrb] at h; cases h
          | some rb =>
            simp only [hrb] at h
            rcases rbModifiedLoop_trace mods rest _ _ p2 t2 h ev hev with hin | hnew
            · rcases List.mem_append.mp hin with hin2 | hin2
              · exact Or.inl hin2
              · simp at hin2
                exact Or.inr ⟨id, Or.inl hin2⟩
            · exact Or.inr hnew
      · simp only [rbModifiedLoop, hid, if_false] at h
        exact rbModifiedLoop_trace mods rest ps tr p2 t2 h ev hev

/-- The removed loop only appends removal logs and missing-mapping reports to
the trace. -/
lemma rbRemovedLoop_trace (rems : List Nat) :
    ∀ (w : World) (ps : PhysicsState) (tr : List SendEvent)
      (p2 : PhysicsState) (t2 : List SendEvent),
      rbRemovedLoop rems w ps tr = (p2, t2) →
      ∀ ev ∈ t2, ev ∈ tr ∨
        ∃ id, ev = SendEvent.bodyRemoved id ∨ ev = SendEvent.removeMissing id
  | [], ps, tr, p2, t2 => by
    intro h ev hev
    simp only [rbRemovedLoop, Prod.mk.injEq] at h
    rw [← h.2] at hev
    exact Or.inl hev
  | e :: rest, ps, tr, p2, t2 => by
    intro h ev hev
    by_cases hid : e.id ∈ rems
    · simp only [rbRemovedLoop, hid, if_true, hm_remove] at h
      cases halist : alist_get ps.ent_body_handles e.id with
      | none =>
        simp only [halist] at h
        rcases rbRemovedLoop_trace rems rest ps _ p2 t2 h ev hev with hin | hnew
        · rcases List.mem_append.mp hin with hin2 | hin2
          · exact Or.inl hin2
          · simp at hin2
            exact Or.inr ⟨e.id, Or.inr hin2⟩
        · exact Or.inr hnew
      | some rb_handle =>
        simp only [halist] at h
        rcases rbRemovedLoop_trace rems rest _ _ p2 t2 h ev hev with hin | hnew
        · rcases List.mem_append.mp hin with hin2 | hin2
          · exact Or.inl hin2
          · simp at hin2
            exact Or.inr ⟨e.id, Or.inl hin2⟩
        · exact Or.inr hnew
    · simp only [rbRemovedLoop, hid, if_false] at h
      exact rbRemovedLoop_trace rems rest ps tr p2 t2 h ev hev

/-- The rigidbody transform-driven loop appends, besides missing-mapping
reports, only position pushes for entities of the store that are in the
modified-transform set and carry both a Transform and a Rigidbody. -/
lemma rbTransformLoop_trace (mts : List Nat) :
    ∀ (w : World) (ps : PhysicsState) (tr : List SendEvent)
      (p2 : PhysicsState) (t2 : List SendEvent),
      rbTransformLoop mts w ps tr = some (p2, t2) →
      ∀ ev ∈ t2, ev ∈ tr ∨ (∃ id, ev = SendEvent.pushMissing id) ∨
        ∃ e ∈ w, ev = SendEvent.positionPushed e.id ∧ e.id ∈ mts ∧
          e.transform.isSome = true ∧ e.rigidbody.isSome = true
  | [], ps, tr, p2, t2 => by
    intro h ev hev
    simp only [rbTransformLoop, Option.some.injEq, Prod.mk.injEq] at h
    rw [← h.2] at hev
    exact Or.inl hev
  | e :: rest, ps, tr, p2, t2 => by
    intro h ev hev
    have weaken :
        (ev ∈ tr ∨ (∃ id, ev = SendEvent.pushMissing id) ∨
          ∃ e2 ∈ rest, ev = SendEvent.positionPushed e2.id ∧ e2.id ∈ mts ∧
            e2.transform.isSome = true ∧ e2.rigidbody.isSome = true) →
        (ev ∈ tr ∨ (∃ id, ev = SendEvent.pushMissing id) ∨
          ∃ e2 ∈ e :: rest, ev = SendEvent.positionPushed e2.id ∧ e2.id ∈ mts ∧
            e2.transform.isSome = true ∧ e2.rigidbody.isSome = true) := by
      rintro (hx | hx | ⟨e2, he2, hx⟩)
      · exact Or.inl hx
      · exact Or.inr (Or.inl hx)
      · exact Or.inr (Or.inr ⟨e2, List.mem_cons_of_mem e he2, hx⟩)
    rcases e with ⟨id, t, r, c⟩
    cases t with
    | none =>
      simp only [rbTransformLoop] at h
      exact weaken (rbTransformLoop_trace mts rest ps tr p2 t2 h ev hev)
    | some transform =>
      cases r with
      | none =>
        simp only [rbTransformLoop] at h
        exact weaken (rbTransformLoop_trace mts rest ps tr p2 t2 h ev hev)
      | some rigidbody =>
        by_cases hid : id ∈ mts
        · simp only [rbTransformLoop, hid, if_true] at h
          cases halist : alist_get ps.ent_body_handles id with
          | none =>
            simp only [halist] at h
            rcases rbTransformLoop_trace mts rest ps _ p2 t2 h ev hev with hin | hrest
            · rcases List.mem_append.mp hin with hin2 | hin2
              · exact Or.inl hin2
              · simp at hin2
                exact Or.inr (Or.inl ⟨id, hin2⟩)
            · exact weaken (Or.inr hrest)
          | some rb_handle =>
            simp only [halist] at h
            cases hrb : ps.bodies.rigid_body rb_handle with
            | none => simp only [hrb] at h; cases h
            | some rb =>
              simp only [hrb] at h
              rcases rbTransformLoop_trace mts rest _ _ p2 t2 h ev hev with hin | hrest
              · rcases List.mem_append.mp hin with hin2 | hin2
                · exact Or.inl hin2
                · simp at hin2
                  subst hin2
                  exact Or.inr (Or.inr
                    ⟨⟨id, some transform, some rigidbody, c⟩, List.mem_cons_self _ _,
                      rfl, hid, rfl, rfl⟩)
              · exact weaken (Or.inr hrest)
        · simp only [rbTransformLoop, hid, if_false] at h
          exact weaken (rbTransformLoop_trace mts rest ps tr p2 t2 h ev hev)

/-- The collider insert step only logs duplicate removals and insertions. -/
lemma colliderInsertStep_trace (ins : List Nat) (ps : PhysicsState) (e : EntityRec)
    (ev : SendEvent) (hev : ev ∈ (colliderInsertStep ins ps e).2) :
    ev = SendEvent.colliderDuplicateRemoved e.id ∨ ev = SendEvent.colliderInserted e.id := by
  rcases e with ⟨id, t, r, c⟩
  cases t with
  | none => simp [colliderInsertStep] at hev
  | some transform =>
    cases c with
    | none => simp [colliderInsertStep] at hev
    | some collider =>
      by_cases hid : id ∈ ins
      · simp only [colliderInsertStep, hid, if_true, hm_remove] at hev
        cases halist : alist_get ps.ent_collider_handles id <;>
          simp [halist, List.mem_append] at hev <;> tauto
      · simp [colliderInsertStep, hid] at hev

/-- The collider insert loop only logs duplicate removals and insertions. -/
lemma colliderInsertLoop_trace (ins : List Nat) :
    ∀ (w : World) (ps : PhysicsState) (ev : SendEvent),
      ev ∈ (colliderInsertLoop ins w ps).2 →
      ∃ id, ev = SendEvent.colliderDuplicateRemoved id ∨ ev = SendEvent.colliderInserted id
  | [], _, ev => by simp [colliderInsertLoop]
  | e :: rest, ps, ev => by
    intro hev
    simp only [colliderInsertLoop, List.mem_append] at hev
    rcases hev with hstep | hrest
    · exact ⟨e.id, colliderInsertStep_trace ins ps e ev hstep⟩
    · exact colliderInsertLoop_trace ins rest (colliderInsertStep ins ps e).1 ev hrest

/-- The collider modified loop only appends its two report events. -/
lemma colliderModifiedLoop_trace (mods : List Nat) :
    ∀ (w : World) (ps : PhysicsState) (tr : List SendEvent)
      (p2 : PhysicsState) (t2 : List SendEvent),
      colliderModifiedLoop mods w ps tr = (p2, t2) →
      ∀ ev ∈ t2, ev ∈ tr ∨
        ∃ id, ev = SendEvent.colliderModified id ∨ ev = SendEvent.colliderModifyMissing id
  | [], ps, tr, p2, t2 => by
    intro h ev hev
    simp only [colliderModifiedLoop, Prod.mk.injEq] at h
    rw [← h.2] at hev
    exact Or.inl hev
  | e :: rest, ps, tr, p2, t2 => by
    intro h ev hev
    rcases e with ⟨id, t, r, c⟩
    cases c with
    | none =>
      simp only [colliderModifiedLoop] at h
      exact colliderModifiedLoop_trace mods rest ps tr p2 t2 h ev hev
    | some collider =>
      by_cases hid : id ∈ mods
      · simp only [colliderModifiedLoop, hid, if_true] at h
        cases halist : alist_get ps.ent_collider_handles id with
        | none =>
          simp only [halist] at h
          rcases colliderModifiedLoop_trace mods rest ps _ p2 t2 h ev hev with hin | hnew
          · rcases List.mem_append.mp hin with hin2 | hin2
            · exact Or.inl hin2
            · simp at hin2
              exact Or.inr ⟨id, Or.inr hin2⟩
          · exact Or.inr hnew
        | some collider_handle =>
          simp only [halist] at h
          rcases colliderModifiedLoop_trace mods rest ps _ p2 t2 h ev hev with hin | hnew
          · rcases List.mem_append.mp hin with hin2 | hin2
            · exact Or.inl hin2
            · simp at hin2
              exact Or.inr ⟨id, Or.inl hin2⟩
          · exact Or.inr hnew
      · simp only [colliderModifiedLoop, hid, if_false] at h
        exact colliderModifiedLoop_trace mods rest ps tr p2 t2 h ev hev

/-- The collider removed loop only appends its two report events. -/
lemma colliderRemovedLoop_trace (rems : List Nat) :
    ∀ (w : World) (ps : PhysicsState) (tr : List SendEvent)
      (p2 : PhysicsState) (t2 : List SendEvent),
      colliderRemovedLoop rems w ps tr = (p2, t2) →
      ∀ ev ∈ t2, ev ∈ tr ∨
        ∃ id, ev = SendEvent.colliderRemoved id ∨ ev = SendEvent.colliderRemoveMissing id
  | [], ps, tr, p2, t2 => by
    intro h ev hev
    simp only [colliderRemovedLoop, Prod.mk.injEq] at h
    rw [← h.2] at hev
    exact Or.inl hev
  | e :: rest, ps, tr, p2, t2 => by
    intro h ev hev
    by_cases hid : e.id ∈ rems
    · simp only [colliderRemovedLoop, hid, if_true, hm_remove] at h
      cases halist : alist_get ps.ent_collider_handles e.id with
      | none =>
        simp only [halist] at h
        rcases colliderRemovedLoop_trace rems rest ps _ p2 t2 h ev hev with hin | hnew
        · rcases List.mem_append.mp hin with hin2 | hin2
          · exact Or.inl hin2
          · simp at hin2
            exact Or.inr ⟨e.id, Or.inr hin2⟩
        · exact Or.inr hnew
      | some collider_handle =>
        simp only [halist] at h
        rcases colliderRemovedLoop_trace rems rest _ _ p2 t2 h ev hev with hin | hnew
        · rcases List.mem_append.mp hin with hin2 | hin2
          · exact Or.inl hin2
          · simp at hin2
            exact Or.inr ⟨e.id, Or.inl hin2⟩
        · exact Or.inr hnew
    · simp only [colliderRemovedLoop, hid, if_false] at h
      exact colliderRemovedLoop_trace rems rest ps tr p2 t2 h ev hev

/-- The collider transform-driven loop appends, besides missing-mapping
reports, only position pushes for entities of the store that are in the
modified-transform set, carry a Transform and a Collider, and have no
Rigidbody. -/
lemma colliderTransformLoop_trace (mts : List Nat) :
    ∀ (w : World) (ps : PhysicsState) (tr : List SendEvent)
      (p2 : PhysicsState) (t2 : List SendEvent),
      colliderTransformLoop mts w ps tr = some (p2, t2) →
      ∀ ev ∈ t2, ev ∈ tr ∨ (∃ id, ev = SendEvent.colliderPushMissing id) ∨
        ∃ e ∈ w, ev = SendEvent.colliderPositionPushed e.id ∧ e.id ∈ mts ∧
          e.transform.isSome = true ∧ e.collider.isSome = true ∧ e.rigidbody = none
  | [], ps, tr, p2, t2 => by
    intro h ev hev
    simp only [colliderTransformLoop, Option.some.injEq, Prod.mk.injEq] at h
    rw [← h.2] at hev
    exact Or.inl hev
  | e :: rest, ps, tr, p2, t2 => by
    intro h ev hev
    have weaken :
        (ev ∈ tr ∨ (∃ id, ev = SendEvent.colliderPushMissing id) ∨
          ∃ e2 ∈ rest, ev = SendEvent.colliderPositionPushed e2.id ∧ e2.id ∈ mts ∧
            e2.transform.isSome = true ∧ e2.collider.isSome = true ∧ e2.rigidbody = none) →
        (ev ∈ tr ∨ (∃ id, ev = SendEvent.colliderPushMissing id) ∨
          ∃ e2 ∈ e :: rest, ev = SendEvent.colliderPositionPushed e2.id ∧ e2.id ∈ mts ∧
            e2.transform.isSome = true ∧ e2.collider.isSome = true ∧ e2.rigidbody = none) := by
      rintro (hx | hx | ⟨e2, he2, hx⟩)
      · exact Or.inl hx
      · exact Or.inr (Or.inl hx)
      · exact Or.inr (Or.inr ⟨e2, List.mem_cons_of_mem e he2, hx⟩)
    rcases e with ⟨id, t, r, c⟩
    cases t with
    | none =>
      cases r with
      | none =>
        cases c with
        | none =>
          simp only [colliderTransformLoop] at h
          exact weaken (colliderTransformLoop_trace mts rest ps tr p2 t2 h ev hev)
        | some collider =>
          simp only [colliderTransformLoop] at h
          exact weaken (colliderTransformLoop_trace mts rest ps tr p2 t2 h ev hev)
      | some rigidbody =>
        simp only [colliderTransformLoop] at h
        exact weaken (colliderTransformLoop_trace mts rest ps tr p2 t2 h ev hev)
    | some transform =>
      cases r with
      | some rigidbody =>
        simp only [colliderTransformLoop] at h
        exact weaken (colliderTransformLoop_trace mts rest ps tr p2 t2 h ev hev)
      | none =>
        cases c with
        | none =>
          simp only [colliderTransformLoop] at h
          exact weaken (colliderTransformLoop_trace mts rest ps tr p2 t2 h ev hev)
        | some collider =>
          by_cases hid : id ∈ mts
          · simp only [colliderTransformLoop, hid, if_true] at h
            cases halist : alist_get ps.ent_collider_handles id with
            | none =>
              simp only [halist] at h
              rcases colliderTransformLoop_trace mts rest ps _ p2 t2 h ev hev with hin | hrest
              · rcases List.mem_append.mp hin with hin2 | hin2
                · exact Or.inl hin2
                · simp at hin2
                  exact Or.inr (Or.inl ⟨id, hin2⟩)
              · exact weaken (Or.inr hrest)
            | some collider_handle =>
              simp only [halist] at h
              cases hgc : ps.colliders.get collider_handle with
              | none => simp only [hgc] at h; cases h
              | some cobj =>
                simp only [hgc] at h
                rcases colliderTransformLoop_trace mts rest _ _ p2 t2 h ev hev with hin | hrest
                · rcases List.mem_append.mp hin with hin2 | hin2
                  · exact Or.inl hin2
                  · simp at hin2
                    subst hin2
                    exact Or.inr (Or.inr
                      ⟨⟨id, some transform, none, some collider⟩, List.mem_cons_self _ _,
                        rfl, hid, rfl, rfl, rfl⟩)
                · exact weaken (Or.inr hrest)
          · simp only [colliderTransformLoop, hid, if_false] at h
            exact weaken (colliderTransformLoop_trace mts rest ps tr p2 t2 h ev hev)

/-- Trace characterization of a completed rigidbody send run: every event is
one of the bookkeeping/report events, or a position push for a store entity
that is in the drained modified-transform set and carries both components. -/
lemma rbSendRun_trace (evT evR : List ComponentEvent) (w : World) (ps : PhysicsState)
    (o : RbSendOut) (hrun : rbSendRun evT evR w ps = some o) :
    ∀ ev ∈ o.trace,
      (∃ id, ev = SendEvent.duplicateRemoved id ∨ ev = SendEvent.bodyInserted id ∨
        ev = SendEvent.velocityPushed id ∨ ev = SendEvent.modifyMissing id ∨
        ev = SendEvent.bodyRemoved id ∨ ev = SendEvent.removeMissing id ∨
        ev = SendEvent.pushMissing id) ∨
      ∃ e ∈ o.world, ev = SendEvent.positionPushed e.id ∧
        e.id ∈ processTransformEvents evT ∧
        e.transform.isSome = true ∧ e.rigidbody.isSome = true := by
  intro ev hev
  simp only [rbSendRun] at hrun
  generalize hIns : rbInsertLoop (processComponentEvents evR).1 w ps = aIns at hrun
  cases hmod : rbModifiedLoop (processComponentEvents evR).2.1 aIns.2.1 aIns.1 aIns.2.2 with
  | none => simp only [hmod] at hrun; cases hrun
  | some aMod =>
    simp only [hmod] at hrun
    generalize hrem :
      rbRemovedLoop (processComponentEvents evR).2.2 aIns.2.1 aMod.1 aMod.2 = aRem at hrun
    cases htrs : rbTransformLoop (processTransformEvents evT) aIns.2.1 aRem.1 aRem.2 with
    | none => simp only [htrs] at hrun; cases hrun
    | some aTr =>
      simp only [htrs] at hrun
      cases hrun
      simp only at hev
      rcases rbTransformLoop_trace (processTransformEvents evT) aIns.2.1 aRem.1 aRem.2
          aTr.1 aTr.2 (by rw [htrs]) ev hev with hin | hpm | ⟨e, he, hevEq, hmts, hts, hrs⟩
      · rcases rbRemovedLoop_trace (processComponentEvents evR).2.2 aIns.2.1 aMod.1 aMod.2
            aRem.1 aRem.2 (by rw [hrem]) ev hin with hin2 | hnew
        · rcases rbModifiedLoop_trace (processComponentEvents evR).2.1 aIns.2.1 aIns.1
              aIns.2.2 aMod.1 aMod.2 (by rw [hmod]) ev hin2 with hin3 | hnew
          · rcases rbInsertLoop_trace (processComponentEvents evR).1 w ps ev
                (by rw [hIns]; exact hin3) with ⟨id, hnew⟩
            exact Or.inl ⟨id, by tauto⟩
          · rcases hnew with ⟨id, hnew⟩
            exact Or.inl ⟨id, by tauto⟩
        · rcases hnew with ⟨id, hnew⟩
          exact Or.inl ⟨id, by tauto⟩
      · rcases hpm with ⟨id, hpm⟩
        exact Or.inl ⟨id, by tauto⟩
      · exact Or.inr ⟨e, he, hevEq, hmts, hts, hrs⟩

/-- Trace characterization of a completed collider send run: every event is
one of the collider bookkeeping/report events, or a collider position push
for a store entity in the drained modified-transform set that carries a
Transform and a Collider and no Rigidbody. -/
lemma colliderSendRun_trace (evT evC : List ComponentEvent) (w : World)
    (ps : PhysicsState) (o : ColliderSendOut)
    (hrun : colliderSendRun evT evC w ps = some o) :
    ∀ ev ∈ o.trace,
      (∃ id, ev = SendEvent.colliderDuplicateRemoved id ∨
        ev = SendEvent.colliderInserted id ∨ ev = SendEvent.colliderModified id ∨
        ev = SendEvent.colliderModifyMissing id ∨ ev = SendEvent.colliderRemoved id ∨
        ev = SendEvent.colliderRemoveMissing id ∨ ev = SendEvent.colliderPushMissing id) ∨
      ∃ e ∈ w, ev = SendEvent.colliderPositionPushed e.id ∧
        e.id ∈ processTransformEvents evT ∧
        e.transform.isSome = true ∧ e.collider.isSome = true ∧ e.rigidbody = none := by
  intro ev hev
  simp only [colliderSendRun] at hrun
  generalize hIns : colliderInsertLoop (processComponentEvents evC).1 w ps = aIns at hrun
  generalize hmod :
    colliderModifiedLoop (processComponentEvents evC).2.1 w aIns.1 aIns.2 = aMod at hrun
  generalize hrem :
    colliderRemovedLoop (processComponentEvents evC).2.2 w aMod.1 aMod.2 = aRem at hrun
  cases htrs : colliderTransformLoop (processTransformEvents evT) w aRem.1 aRem.2 with
  | none => rw [htrs] at hrun; cases hrun
  | some aTr =>
    rw [htrs] at hrun
    cases hrun
    simp only at hev
    rcases colliderTransformLoop_trace (processTransformEvents evT) w aRem.1 aRem.2
        aTr.1 aTr.2 (by rw [htrs]) ev hev with hin | hpm | ⟨e, he, hx⟩
    · rcases colliderRemovedLoop_trace (processComponentEvents evC).2.2 w aMod.1 aMod.2
          aRem.1 aRem.2 (by rw [hrem]) ev hin with hin2 | hnew
      · rcases colliderModifiedLoop_trace (processComponentEvents evC).2.1 w aIns.1 aIns.2
            aMod.1 aMod.2 (by rw [hmod]) ev hin2 with hin3 | hnew
        · rcases colliderInsertLoop_trace (processComponentEvents evC).1 w ps ev
              (by rw [hIns]; exact hin3) with ⟨id, hnew⟩
          exact Or.inl ⟨id, by tauto⟩
        · rcases hnew with ⟨id, hnew⟩
          exact Or.inl ⟨id, by tauto⟩
      · rcases hnew with ⟨id, hnew⟩
        exact Or.inl ⟨id, by tauto⟩
    · rcases hpm with ⟨id, hpm⟩
      exact Or.inl ⟨id, by tauto⟩
    · exact Or.inr ⟨e, he, hx⟩

/-- C3 (counterexample): an entity whose Rigidbody and Transform are both
freshly inserted this tick still receives a transform-driven position push
from the rigidbody send system (the trace records `positionPushed 0` even
though `0` is in the drained inserted set) - the claim's "not freshly
inserted this tick" restriction is not in the code. -/
theorem transform_push_fresh_insert_counterexample :
    (rbSendRun [ComponentEvent.Inserted 0] [ComponentEvent.Inserted 0]
      [⟨0, some sampleTransform, some sampleRbNone, none⟩] PhysicsState.new).map
        RbSendOut.trace =
      some [SendEvent.bodyInserted 0, SendEvent.positionPushed 0] ∧
    0 ∈ (processComponentEvents [ComponentEvent.Inserted 0]).1 := by
  exact ⟨rfl, by simp [processComponentEvents, bs_add]⟩

/-- C3 (amended): during a completed outbound sync pass, a transform-driven
position push happens only for entities of the store whose Transform changed
(was inserted or modified) this tick; on the rigidbody side the entity must
carry a Transform and a Rigidbody, and on the collider side it must carry a
Transform and a Collider and have no Rigidbody.  (Freshly inserted entities
are *not* excluded - see the counterexample.) -/
theorem transform_push_conditions_amended
    (transform_events rigidbody_events collider_events : List ComponentEvent)
    (world : World) (physics : PhysicsState) (o : SyncOut)
    (hrun : outboundSync transform_events rigidbody_events collider_events world physics =
      some o) :
    (∀ id, SendEvent.positionPushed id ∈ o.trace →
      id ∈ processTransformEvents transform_events ∧
      ∃ e ∈ o.world, e.id = id ∧ e.transform.isSome = true ∧ e.rigidbody.isSome = true) ∧
    (∀ id, SendEvent.colliderPositionPushed id ∈ o.trace →
      id ∈ processTransformEvents transform_events ∧
      ∃ e ∈ o.world, e.id = id ∧ e.transform.isSome = true ∧ e.collider.isSome = true ∧
        e.rigidbody = none) := by
  simp only [outboundSync] at hrun
  cases h1 : rbSendRun transform_events rigidbody_events world physics with
  | none => simp only [h1] at hrun; cases hrun
  | some o1 =>
    simp only [h1] at hrun
    cases h2 : colliderSendRun transform_events collider_events o1.world o1.physics with
    | none => simp only [h2] at hrun; cases hrun
    | some o2 =>
      simp only [h2] at hrun
      cases hrun
      constructor
      · intro id hid
        simp only [List.mem_append] at hid
        rcases hid with hid | hid
        · rcases rbSendRun_trace transform_events rigidbody_events world physics o1 h1
              (SendEvent.positionPushed id) hid with ⟨id2, hforms⟩ | ⟨e, he, heq, hmts, hts, hrs⟩
          · simp at hforms
          · cases heq
            exact ⟨hmts, e, he, rfl, hts, hrs⟩
        · rcases colliderSendRun_trace transform_events collider_events o1.world o1.physics
              o2 h2 (SendEvent.positionPushed id) hid with ⟨id2, hforms⟩ | ⟨e, he, heq, hx⟩
          · simp at hforms
          · cases heq
      · intro id hid
        simp only [List.mem_append] at hid
        rcases hid with hid | hid
        · rcases rbSendRun_trace transform_events rigidbody_events world physics o1 h1
              (SendEvent.colliderPositionPushed id) hid with ⟨id2, hforms⟩ | ⟨e, he, heq, hx⟩
          · simp at hforms
          · cases heq
        · rcases colliderSendRun_trace transform_events collider_events o1.world o1.physics
              o2 h2 (SendEvent.colliderPositionPushed id) hid with
              ⟨id2, hforms⟩ | ⟨e, he, heq, hmts, hts, hcs, hrn⟩
          · simp at hforms
          · cases heq
            exact ⟨hmts, e, he, rfl, hts, hcs, hrn⟩

/-- Witness for the amended C3 on the sample first pass, which performs a
transform-driven push for entity 0. -/
theorem transform_push_conditions_witness :
    outboundSync [ComponentEvent.Inserted 0] [ComponentEvent.Inserted 0] []
      [⟨0, some ⟨⟨224, 256⟩, ⟨3, 4⟩, ⟨0, 0⟩, ⟨1, 1⟩⟩,
          some ⟨none, ⟨⟨1, 2⟩, 0⟩, ⟨⟨0, 0⟩, 0⟩, 0, 1, BodyStatus.Dynamic⟩, none⟩]
      PhysicsState.new = some sampleSyncOut ∧
    ((∀ id, SendEvent.positionPushed id ∈ sampleSyncOut.trace →
      id ∈ processTransformEvents [ComponentEvent.Inserted 0] ∧
      ∃ e ∈ sampleSyncOut.world, e.id = id ∧ e.transform.isSome = true ∧
        e.rigidbody.isSome = true) ∧
    (∀ id, SendEvent.colliderPositionPushed id ∈ sampleSyncOut.trace →
      id ∈ processTransformEvents [ComponentEvent.Inserted 0] ∧
      ∃ e ∈ sampleSyncOut.world, e.id = id ∧ e.transform.isSome = true ∧
        e.collider.isSome = true ∧ e.rigidbody = none)) :=
  ⟨rfl, transform_push_conditions_amended [ComponentEvent.Inserted 0]
    [ComponentEvent.Inserted 0] []
    [⟨0, some ⟨⟨224, 256⟩, ⟨3, 4⟩, ⟨0, 0⟩, ⟨1, 1⟩⟩,
        some ⟨none, ⟨⟨1, 2⟩, 0⟩, ⟨⟨0, 0⟩, 0⟩, 0, 1, BodyStatus.Dynamic⟩, none⟩]
    PhysicsState.new sampleSyncOut rfl⟩

/-- Erasing a key removes it from lookups. -/
lemma alist_get_erase_self {α : Type} (m : List (Nat × α)) (k : Nat) :
    alist_get (alist_erase m k) k = none := by
  induction m with
  | nil => rfl
  | cons p rest ih =>
    by_cases hp : p.1 = k
    · simp [alist_erase, hp, ih]
    · simp [alist_erase, alist_get, hp, ih]

/-- Erasing one key leaves lookups of other keys unchanged. -/
lemma alist_get_erase_ne {α : Type} (m : List (Nat × α)) (k k2 : Nat) (hne : k2 ≠ k) :
    alist_get (alist_erase m k) k2 = alist_get m k2 := by
  induction m with
  | nil => rfl
  | cons p rest ih =>
    by_cases hp : p.1 = k
    · simp [alist_erase, alist_get, hp, Ne.symm hne, ih]
    · simp [alist_erase, alist_get, hp, ih]

/-- Inserting stores the value under the key. -/
lemma alist_get_insert_self {α : Type} (m : List (Nat × α)) (k : Nat) (v : α) :
    alist_get (hm_insert m k v) k = some v := by
  simp [hm_insert, alist_get]

/-- Inserting under one key leaves lookups of other keys unchanged. -/
lemma alist_get_insert_ne {α : Type} (m : List (Nat × α)) (k k2 : Nat) (v : α)
    (hne : k2 ≠ k) :
    alist_get (hm_insert m k v) k2 = alist_get m k2 := by
  simp only [hm_insert, alist_get]
  rw [if_neg (fun hx => hne hx.symm)]
  exact alist_get_erase_ne m k k2 hne

/-- A successful lookup comes from a list entry. -/
lemma alist_get_mem {α : Type} (m : List (Nat × α)) (k : Nat) (v : α)
    (h : alist_get m k = some v) : (k, v) ∈ m := by
  induction m with
  | nil => cases h
  | cons p rest ih =>
    by_cases hp : p.1 = k
    · simp only [alist_get, hp, if_true, Option.some.injEq] at h
      exact List.mem_cons.mpr (Or.inl (Prod.ext hp.symm h.symm))
    · simp only [alist_get, hp, if_false] at h
      exact List.mem_cons_of_mem p (ih h)

/-- Erasure produces a sublist. -/
lemma alist_erase_sublist {α : Type} (m : List (Nat × α)) (k : Nat) :
    List.Sublist (alist_erase m k) m := by
  induction m with
  | nil => simp [alist_erase]
  | cons p rest ih =>
    by_cases hp : p.1 = k
    · simp only [alist_erase, hp, if_true]
      exact ih.cons p
    · simp only [alist_erase, hp, if_false]
      exact ih.cons₂ p

/-- Every entry surviving an erase was an entry of the original list. -/
lemma alist_erase_subset {α : Type} (m : List (Nat × α)) (k : Nat) (p : Nat × α)
    (h : p ∈ alist_erase m k) : p ∈ m :=
  (alist_erase_sublist m k).subset h

/-- A key below every key of the list looks up to nothing. -/
lemma alist_get_none_of_keys_lt {α : Type} (m : List (Nat × α)) (n : Nat)
    (h : ∀ p ∈ m, p.1 < n) : alist_get m n = none := by
  induction m with
  | nil => rfl
  | cons p rest ih =>
    have hp := h p (List.mem_cons_self p rest)
    simp only [alist_get, Nat.ne_of_lt hp, if_false]
    exact ih fun q hq => h q (List.mem_cons_of_mem p hq)

/-- Lookup distributes over an appended singleton. -/
lemma alist_get_append_single {α : Type} (m : List (Nat × α)) (n : Nat) (b : α) (k : Nat) :
    alist_get (m ++ [(n, b)]) k =
      match alist_get m k with
      | some v => some v
      | none => if n = k then some b else none := by
  induction m with
  | nil => rfl
  | cons p rest ih =>
    by_cases hp : p.1 = k
    · simp [alist_get, hp]
    · simp [alist_get, hp, ih]

/-- Lookup after the keyed in-place update of `set_rigid`/`set_collider`. -/
lemma alist_get_map_update {α : Type} (m : List (Nat × α)) (h2 : Nat) (f : α → α)
    (k : Nat) :
    alist_get (m.map fun p => if p.1 = h2 then (p.1, f p.2) else p) k =
      if k = h2 then (alist_get m k).map f else alist_get m k := by
  induction m with
  | nil => simp [alist_get]
  | cons p rest ih =>
    by_cases hk : p.1 = k
    · by_cases hh : k = h2
      · have hph : p.1 = h2 := hk.trans hh
        simp [alist_get, hph, hk, hh, ih]
      · have hph : ¬ p.1 = h2 := fun hx => hh (hk.symm.trans hx)
        simp [alist_get, hph, hk, hh]
    · by_cases hph : p.1 = h2
      · have hhk : ¬ h2 = k := fun hx => hk (hph.trans hx)
        have hkh : ¬ k = h2 := fun hx => hhk hx.symm
        simp [alist_get, hph, hk, hhk, hkh, ih]
      · simp [alist_get, hph, hk, ih]

/-- The update of `set_rigid`/`set_collider` keeps the key list. -/
lemma map_update_keys {α : Type} (m : List (Nat × α)) (h2 : Nat) (f : α → α) :
    (m.map fun p => if p.1 = h2 then (p.1, f p.2) else p).map Prod.fst = m.map Prod.fst := by
  induction m with
  | nil => rfl
  | cons p rest ih =>
    by_cases hp : p.1 = h2 <;> simp [hp, ih]

/-- A lookup fails exactly when the key is absent from the key list. -/
lemma alist_get_eq_none_iff {α : Type} (m : List (Nat × α)) (k : Nat) :
    alist_get m k = none ↔ k ∉ m.map Prod.fst := by
  induction m with
  | nil => simp [alist_get]
  | cons p rest ih =>
    by_cases hp : p.1 = k
    · simp [alist_get, hp]
    · have hkp : ¬ k = p.1 := fun hx => hp hx.symm
      simp [alist_get, hp, hkp, ih]

/-- Two keys mapping to the same handle coincide, given pairwise-distinct
values. -/
lemma alist_vals_inj {α : Type} [DecidableEq α] (m : List (Nat × α))
    (hpw : List.Pairwise (fun p q => p.2 ≠ q.2) m) (k1 k2 : Nat) (v : α)
    (h1 : alist_get m k1 = some v) (h2 : alist_get m k2 = some v) : k1 = k2 := by
  by_contra hne
  have hm1 := alist_get_mem m k1 v h1
  have hm2 := alist_get_mem m k2 v h2
  have hpq : ((k1, v) : Nat × α) ≠ (k2, v) := fun hx => hne (congrArg Prod.fst hx)
  have := List.Pairwise.forall (fun p q hx => Ne.symm hx) hpw hm1 hm2 hpq
  exact this rfl

/-- A mapped handle is below the fresh-handle counter. -/
lemma physwf_val_lt (ps : PhysicsState) (hwf : PhysWF ps) (k h : Nat)
    (hk : alist_get ps.ent_body_handles k = some h) : h < ps.bodies.next_handle :=
  hwf.1 (k, h) (alist_get_mem _ _ _ hk)

/-- Two entities mapped to the same handle coincide. -/
lemma physwf_vals_inj (ps : PhysicsState) (hwf : PhysWF ps) (k1 k2 h : Nat)
    (h1 : alist_get ps.ent_body_handles k1 = some h)
    (h2 : alist_get ps.ent_body_handles k2 = some h) : k1 = k2 :=
  alist_vals_inj ps.ent_body_handles hwf.2.1 k1 k2 h h1 h2

/-- The insert step preserves well-formedness and never lowers the
fresh-handle counter. -/
lemma rbInsertStep_wf (ins : List Nat) (ps : PhysicsState) (e : EntityRec)
    (hwf : PhysWF ps) :
    PhysWF (rbInsertStep ins ps e).1 ∧
    ps.bodies.next_handle ≤ (rbInsertStep ins ps e).1.bodies.next_handle := by
  rcases e with ⟨id, t, r, c⟩
  cases t with
  | none => simp only [rbInsertStep]; exact ⟨hwf, le_refl _⟩
  | some transform =>
    cases r with
    | none => simp only [rbInsertStep]; exact ⟨hwf, le_refl _⟩
    | some rigidbody =>
      by_cases hins : id ∈ ins
      · simp only [rbInsertStep, hins, if_true, hm_remove]
        cases hdup : alist_get ps.ent_body_handles id with
        | none =>
          simp only [BodySet.insert, BodySet.remove, hm_insert]
          refine ⟨⟨?_, ?_, ?_⟩, Nat.le_succ _⟩
          · intro p hp
            rcases List.mem_cons.mp hp with hp | hp
            · rw [hp]; exact Nat.lt_succ_self _
            · exact Nat.lt_succ_of_lt (hwf.1 p
                (alist_erase_subset _ _ _ (alist_erase_subset _ _ _ hp)))
          · rw [List.pairwise_cons]
            refine ⟨?_, ?_⟩
            · intro q hq
              have := hwf.1 q (alist_erase_subset _ _ _ (alist_erase_subset _ _ _ hq))
              exact fun hx => absurd (hx ▸ this) (lt_irrefl _)
            · exact List.Pairwise.sublist
                ((alist_erase_sublist _ _).trans (alist_erase_sublist _ _)) hwf.2.1
          · intro p hp
            rcases List.mem_append.mp hp with hp | hp
            · exact Nat.lt_succ_of_lt (hwf.2.2 p hp)
            · simp at hp
              subst hp; exact Nat.lt_succ_self _
        | some h_old =>
          simp only [BodySet.insert, BodySet.remove, hm_insert]
          refine ⟨⟨?_, ?_, ?_⟩, Nat.le_succ _⟩
          · intro p hp
            rcases List.mem_cons.mp hp with hp | hp
            · rw [hp]; exact Nat.lt_succ_self _
            · exact Nat.lt_succ_of_lt (hwf.1 p
                (alist_erase_subset _ _ _ (alist_erase_subset _ _ _ hp)))
          · rw [List.pairwise_cons]
            refine ⟨?_, ?_⟩
            · intro q hq
              have := hwf.1 q (alist_erase_subset _ _ _ (alist_erase_subset _ _ _ hq))
              exact fun hx => absurd (hx ▸ this) (lt_irrefl _)
            · exact List.Pairwise.sublist
                ((alist_erase_sublist _ _).trans (alist_erase_sublist _ _)) hwf.2.1
          · intro p hp
            rcases List.mem_append.mp hp with hp | hp
            · exact Nat.lt_succ_of_lt (hwf.2.2 p (alist_erase_subset _ _ _ hp))
            · simp at hp
              subst hp; exact Nat.lt_succ_self _
      · simp only [rbInsertStep, hins, if_false]
        exact ⟨hwf, le_refl _⟩

/-- The insert step skips an entity that is not joined (missing component) or
not in the inserted bitset. -/
lemma rbInsertStep_skip (ins : List Nat) (ps : PhysicsState) (e : EntityRec)
    (h : e.id ∉ ins ∨ e.transform = none ∨ e.rigidbody = none) :
    rbInsertStep ins ps e = (ps, e, []) := by
  rcases e with ⟨id, t, r, c⟩
  cases t with
  | none => simp [rbInsertStep]
  | some transform =>
    cases r with
    | none => simp [rbInsertStep]
    | some rigidbody =>
      rcases h with h | h | h
      · simp [rbInsertStep, h]
      · cases h
      · cases h

/-- The insert step leaves other entities' mappings and bodies alone. -/
lemma rbInsertStep_preserve (ins : List Nat) (ps : PhysicsState) (e : EntityRec)
    (k h : Nat) (hwf : PhysWF ps) (hne : e.id ≠ k)
    (hk : alist_get ps.ent_body_handles k = some h) :
    alist_get (rbInsertStep ins ps e).1.ent_body_handles k = some h ∧
    (rbInsertStep ins ps e).1.bodies.get h = ps.bodies.get h := by
  rcases e with ⟨id, t, r, c⟩
  cases t with
  | none => simp only [rbInsertStep]; exact ⟨hk, trivial⟩
  | some transform =>
    cases r with
    | none => simp only [rbInsertStep]; exact ⟨hk, trivial⟩
    | some rigidbody =>
      by_cases hins : id ∈ ins
      · simp only [rbInsertStep, hins, if_true, hm_remove]
        have hlt : h < ps.bodies.next_handle := physwf_val_lt ps hwf k h hk
        cases hdup : alist_get ps.ent_body_handles id with
        | none =>
          simp only [BodySet.insert, BodySet.remove, BodySet.get]
          constructor
          · rw [alist_get_insert_ne _ _ _ _ (fun hx => hne hx.symm)]
            rw [alist_get_erase_ne _ _ _ (fun hx => hne hx.symm)]
            exact hk
          · rw [alist_get_append_single]
            cases hv : alist_get ps.bodies.objs h with
            | none => simp [Nat.ne_of_gt hlt]
            | some v => simp
        | some h_old =>
          have hne2 : h ≠ h_old := fun hx =>
            hne (physwf_vals_inj ps hwf id k h (hx ▸ hdup) hk)
          simp only [BodySet.insert, BodySet.remove, BodySet.get]
          constructor
          · rw [alist_get_insert_ne _ _ _ _ (fun hx => hne hx.symm)]
            rw [alist_get_erase_ne _ _ _ (fun hx => hne hx.symm)]
            exact hk
          · rw [alist_get_append_single, alist_get_erase_ne _ _ _ hne2]
            cases hv : alist_get ps.bodies.objs h with
            | none => simp [Nat.ne_of_gt hlt]
            | some v => simp
      · simp only [rbInsertStep, hins, if_false]
        exact ⟨hk, trivial⟩

/-- The insert step on a joined, freshly inserted entity: the new body is
stored at the old fresh handle, mapped, and written into the component; a
stale body (duplicate insert) is removed first. -/
lemma rbInsertStep_self (ins : List Nat) (ps : PhysicsState) (e : EntityRec)
    (t : TransformComponent) (rb : RigidbodyComponent)
    (hwf : PhysWF ps) (ht : e.transform = some t) (hr : e.rigidbody = some rb)
    (hins : e.id ∈ ins) :
    alist_get (rbInsertStep ins ps e).1.ent_body_handles e.id =
      some ps.bodies.next_handle ∧
    (rbInsertStep ins ps e).1.bodies.rigid_body ps.bodies.next_handle =
      some (buildRigidBody t rb e.id) ∧
    (rbInsertStep ins ps e).2.1 =
      { e with rigidbody := some { rb with handle := some ps.bodies.next_handle } } ∧
    (rbInsertStep ins ps e).1.bodies.next_handle = ps.bodies.next_handle + 1 ∧
    (∀ h_old, alist_get ps.ent_body_handles e.id = some h_old →
      (rbInsertStep ins ps e).1.bodies.get h_old = none ∧
      ps.bodies.next_handle ≠ h_old) := by
  simp only [rbInsertStep, ht, hr, hins, if_true, hm_remove]
  cases hdup : alist_get ps.ent_body_handles e.id with
  | none =>
    simp only [BodySet.insert, BodySet.remove, BodySet.get, BodySet.rigid_body]
    refine ⟨alist_get_insert_self _ _ _, ?_, trivial, trivial, ?_⟩
    · rw [alist_get_append_single,
        alist_get_none_of_keys_lt ps.bodies.objs ps.bodies.next_handle hwf.2.2]
      simp
    · intro h_old hold
      cases hold
  | some h_old =>
    have hlt : h_old < ps.bodies.next_handle := physwf_val_lt ps hwf e.id h_old hdup
    simp only [BodySet.insert, BodySet.remove, BodySet.get, BodySet.rigid_body]
    refine ⟨alist_get_insert_self _ _ _, ?_, trivial, trivial, ?_⟩
    · rw [alist_get_append_single,
        alist_get_none_of_keys_lt (alist_erase ps.bodies.objs h_old) ps.bodies.next_handle
          (fun p hp => hwf.2.2 p (alist_erase_subset _ _ _ hp))]
      simp
    · intro h_old2 hold2
      cases hold2
      refine ⟨?_, Nat.ne_of_gt hlt⟩
      rw [alist_get_append_single, alist_get_erase_self]
      simp [Nat.ne_of_gt hlt]

/-- The insert step keeps absent handles absent (all additions are fresh). -/
lemma rbInsertStep_get_none (ins : List Nat) (ps : PhysicsState) (e : EntityRec)
    (h : Nat) (hlt : h < ps.bodies.next_handle) (hn : ps.bodies.get h = none) :
    (rbInsertStep ins ps e).1.bodies.get h = none := by
  rcases e with ⟨id, t, r, c⟩
  cases t with
  | none => simpa [rbInsertStep] using hn
  | some transform =>
    cases r with
    | none => simpa [rbInsertStep] using hn
    | some rigidbody =>
      by_cases hins : id ∈ ins
      · simp only [rbInsertStep, hins, if_true, hm_remove]
        cases hdup : alist_get ps.ent_body_handles id with
        | none =>
          simp only [BodySet.insert, BodySet.remove, BodySet.get]
          rw [alist_get_append_single]
          simp only [BodySet.get] at hn
          rw [hn]
          simp [Nat.ne_of_gt hlt]
        | some h_old =>
          simp only [BodySet.insert, BodySet.remove, BodySet.get]
          rw [alist_get_append_single]
          by_cases hh : h = h_old
          · rw [hh, alist_get_erase_self]
            simp [hh ▸ Nat.ne_of_gt hlt]
          · rw [alist_get_erase_ne _ _ _ hh]
            simp only [BodySet.get] at hn
            rw [hn]
            simp [Nat.ne_of_gt hlt]
      · simpa [rbInsertStep, hins] using hn

/-- The insert loop splits across list append. -/
lemma rbInsertLoop_append (ins : List Nat) :
    ∀ (xs ys : World) (ps : PhysicsState),
      rbInsertLoop ins (xs ++ ys) ps =
        ((rbInsertLoop ins ys (rbInsertLoop ins xs ps).1).1,
         (rbInsertLoop ins xs ps).2.1 ++ (rbInsertLoop ins ys (rbInsertLoop ins xs ps).1).2.1,
         (rbInsertLoop ins xs ps).2.2 ++ (rbInsertLoop ins ys (rbInsertLoop ins xs ps).1).2.2)
  | [], ys, ps => by simp [rbInsertLoop]
  | x :: xs, ys, ps => by
    simp [rbInsertLoop, rbInsertLoop_append ins xs ys (rbInsertStep ins ps x).1]

/-- The insert loop preserves well-formedness and never lowers the
fresh-handle counter. -/
lemma rbInsertLoop_wf (ins : List Nat) :
    ∀ (w : World) (ps : PhysicsState), PhysWF ps →
      PhysWF (rbInsertLoop ins w ps).1 ∧
      ps.bodies.next_handle ≤ (rbInsertLoop ins w ps).1.bodies.next_handle
  | [], ps => fun hwf => ⟨hwf, le_refl _⟩
  | e :: rest, ps => fun hwf => by
    simp only [rbInsertLoop]
    obtain ⟨hwf1, hle1⟩ := rbInsertStep_wf ins ps e hwf
    obtain ⟨hwf2, hle2⟩ := rbInsertLoop_wf ins rest (rbInsertStep ins ps e).1 hwf1
    exact ⟨hwf2, le_trans hle1 hle2⟩

/-- The insert loop leaves the mapping and body of an entity not in the
processed list alone. -/
lemma rbInsertLoop_preserve (ins : List Nat) (k h : Nat) :
    ∀ (w : World) (ps : PhysicsState), PhysWF ps → (∀ e ∈ w, e.id ≠ k) →
      alist_get ps.ent_body_handles k = some h →
      alist_get (rbInsertLoop ins w ps).1.ent_body_handles k = some h ∧
      (rbInsertLoop ins w ps).1.bodies.get h = ps.bodies.get h
  | [], ps => fun _ _ hk => ⟨hk, rfl⟩
  | e :: rest, ps => fun hwf hids hk => by
    simp only [rbInsertLoop]
    obtain ⟨hk1, hb1⟩ := rbInsertStep_preserve ins ps e k h hwf
      (hids e (List.mem_cons_self e rest)) hk
    obtain ⟨hwf1, _⟩ := rbInsertStep_wf ins ps e hwf
    obtain ⟨hk2, hb2⟩ := rbInsertLoop_preserve ins k h rest (rbInsertStep ins ps e).1 hwf1
      (fun e2 he2 => hids e2 (List.mem_cons_of_mem e he2)) hk1
    exact ⟨hk2, hb2.trans hb1⟩

/-- The insert loop keeps absent handles absent. -/
lemma rbInsertLoop_get_none (ins : List Nat) (h : Nat) :
    ∀ (w : World) (ps : PhysicsState), PhysWF ps → h < ps.bodies.next_handle →
      ps.bodies.get h = none →
      (rbInsertLoop ins w ps).1.bodies.get h = none
  | [], _ => fun _ _ hn => hn
  | e :: rest, ps => fun hwf hlt hn => by
    simp only [rbInsertLoop]
    obtain ⟨hwf1, hle1⟩ := rbInsertStep_wf ins ps e hwf
    exact rbInsertLoop_get_none ins h rest (rbInsertStep ins ps e).1 hwf1
      (lt_of_lt_of_le hlt hle1) (rbInsertStep_get_none ins ps e h hlt hn)

/-- The insert loop keeps entity ids (it only rewrites the rigidbody field). -/
lemma rbInsertLoop_ids (ins : List Nat) :
    ∀ (w : World) (ps : PhysicsState),
      (rbInsertLoop ins w ps).2.1.map EntityRec.id = w.map EntityRec.id
  | [], _ => rfl
  | e :: rest, ps => by
    have hid : (rbInsertStep ins ps e).2.1.id = e.id := by
      rcases e with ⟨id, t, r, c⟩
      cases t with
      | none => simp [rbInsertStep]
      | some transform =>
        cases r with
        | none => simp [rbInsertStep]
        | some rigidbody =>
          by_cases hins : id ∈ ins
          · simp [rbInsertStep, hins, hm_remove]
          · simp [rbInsertStep, hins]
    simp only [rbInsertLoop, List.map_cons, hid,
      rbInsertLoop_ids ins rest (rbInsertStep ins ps e).1]

/-- The removed loop preserves well-formedness and the fresh-handle counter. -/
lemma rbRemovedLoop_invariant (rems : List Nat) :
    ∀ (w : World) (ps : PhysicsState) (tr : List SendEvent),
      PhysWF ps →
      PhysWF (rbRemovedLoop rems w ps tr).1 ∧
      (rbRemovedLoop rems w ps tr).1.bodies.next_handle = ps.bodies.next_handle
  | [], ps, tr => fun hwf => ⟨hwf, rfl⟩
  | e :: rest, ps, tr => fun hwf => by
    by_cases hid : e.id ∈ rems
    · simp only [rbRemovedLoop, hid, if_true, hm_remove]
      cases halist : alist_get ps.ent_body_handles e.id with
      | none => exact rbRemovedLoop_invariant rems rest ps _ hwf
      | some rb_handle =>
        refine rbRemovedLoop_invariant rems rest _ _ ⟨?_, ?_, ?_⟩
        · intro p hp
          exact hwf.1 p (alist_erase_subset _ _ _ hp)
        · exact List.Pairwise.sublist (alist_erase_sublist _ _) hwf.2.1
        · intro p hp
          exact hwf.2.2 p (alist_erase_subset _ _ _ hp)
    · simp only [rbRemovedLoop, hid, if_false]
      exact rbRemovedLoop_invariant rems rest ps tr hwf

/-- The removed loop leaves the mapping and body of an entity that is not
being removed (or does not appear) alone. -/
lemma rbRemovedLoop_preserve (rems : List Nat) (k h : Nat) :
    ∀ (w : World) (ps : PhysicsState) (tr : List SendEvent),
      List.Pairwise (fun p q => p.2 ≠ q.2) ps.ent_body_handles →
      (∀ e ∈ w, e.id = k → k ∉ rems) →
      alist_get ps.ent_body_handles k = some h →
      alist_get (rbRemovedLoop rems w ps tr).1.ent_body_handles k = some h ∧
      (rbRemovedLoop rems w ps tr).1.bodies.get h = ps.bodies.get h
  | [], ps, tr => fun _ _ hk => ⟨hk, rfl⟩
  | e :: rest, ps, tr => fun hpw hids hk => by
    by_cases hid : e.id ∈ rems
    · have hek : e.id ≠ k := fun hx => hids e (List.mem_cons_self e rest) hx (hx ▸ hid)
      simp only [rbRemovedLoop, hid, if_true, hm_remove]
      cases halist : alist_get ps.ent_body_handles e.id with
      | none =>
        exact rbRemovedLoop_preserve rems k h rest ps _ hpw
          (fun e2 he2 => hids e2 (List.mem_cons_of_mem e he2)) hk
      | some rb_handle =>
        have hbne : h ≠ rb_handle := fun hx =>
          hek (alist_vals_inj ps.ent_body_handles hpw e.id k h (hx ▸ halist) hk)
        obtain ⟨hk2, hb2⟩ := rbRemovedLoop_preserve rems k h rest
          { ps with
            ent_body_handles := alist_erase ps.ent_body_handles e.id
            bodies := ps.bodies.remove rb_handle } _
          (List.Pairwise.sublist (alist_erase_sublist _ _) hpw)
          (fun e2 he2 => hids e2 (List.mem_cons_of_mem e he2))
          (by
            show alist_get (alist_erase ps.ent_body_handles e.id) k = some h
            rw [alist_get_erase_ne _ _ _ (fun hx => hek hx.symm)]
            exact hk)
        refine ⟨hk2, hb2.trans ?_⟩
        show (ps.bodies.remove rb_handle).get h = ps.bodies.get h
        simp only [BodySet.remove, BodySet.get]
        exact alist_get_erase_ne _ _ _ hbne
    · simp only [rbRemovedLoop, hid, if_false]
      exact rbRemovedLoop_preserve rems k h rest ps tr hpw
        (fun e2 he2 => hids e2 (List.mem_cons_of_mem e he2)) hk

/-- The removed loop cannot create a mapping. -/
lemma rbRemovedLoop_map_none (rems : List Nat) (k : Nat) :
    ∀ (w : World) (ps : PhysicsState) (tr : List SendEvent),
      alist_get ps.ent_body_handles k = none →
      alist_get (rbRemovedLoop rems w ps tr).1.ent_body_handles k = none
  | [], _, _ => fun hn => hn
  | e :: rest, ps, tr => fun hn => by
    by_cases hid : e.id ∈ rems
    · simp only [rbRemovedLoop, hid, if_true, hm_remove]
      cases halist : alist_get ps.ent_body_handles e.id with
      | none => exact rbRemovedLoop_map_none rems k rest ps _ hn
      | some rb_handle =>
        refine rbRemovedLoop_map_none rems k rest _ _ ?_
        show alist_get (alist_erase ps.ent_body_handles e.id) k = none
        by_cases hek : k = e.id
        · rw [hek]; exact alist_get_erase_self _ _
        · rw [alist_get_erase_ne _ _ _ hek]; exact hn
    · simp only [rbRemovedLoop, hid, if_false]
      exact rbRemovedLoop_map_none rems k rest ps tr hn

/-- The removed loop cannot create a body. -/
lemma rbRemovedLoop_body_none (rems : List Nat) (h : Nat) :
    ∀ (w : World) (ps : PhysicsState) (tr : List SendEvent),
      ps.bodies.get h = none →
      (rbRemovedLoop rems w ps tr).1.bodies.get h = none
  | [], _, _ => fun hn => hn
  | e :: rest, ps, tr => fun hn => by
    by_cases hid : e.id ∈ rems
    · simp only [rbRemovedLoop, hid, if_true, hm_remove]
      cases halist : alist_get ps.ent_body_handles e.id with
      | none => exact rbRemovedLoop_body_none rems h rest ps _ hn
      | some rb_handle =>
        refine rbRemovedLoop_body_none rems h rest _ _ ?_
        show (ps.bodies.remove rb_handle).get h = none
        simp only [BodySet.remove, BodySet.get]
        by_cases hhr : h = rb_handle
        · rw [hhr]; exact alist_get_erase_self _ _
        · rw [alist_get_erase_ne _ _ _ hhr]
          exact hn
    · simp only [rbRemovedLoop, hid, if_false]
      exact rbRemovedLoop_body_none rems h rest ps tr hn

/-- Lookup after `set_rigid`. -/
lemma BodySet.set_rigid_get (s : BodySet) (h2 : Nat) (rb : RigidBody) (h : Nat) :
    (s.set_rigid h2 rb).get h =
      if h = h2 then (s.get h).map (fun _ => BodyObj.rigid rb) else s.get h := by
  simp only [BodySet.set_rigid, BodySet.get]
  exact alist_get_map_update s.objs h2 (fun _ => BodyObj.rigid rb) h

/-- The state effect of a completed modified loop: only body contents change;
the handle map, the key set of the arena, the counter, and which handles
resolve to rigid bodies are untouched. -/
lemma rbModifiedLoop_state (mods : List Nat) :
    ∀ (w : World) (ps : PhysicsState) (tr : List SendEvent)
      (p2 : PhysicsState) (t2 : List SendEvent),
      rbModifiedLoop mods w ps tr = some (p2, t2) →
      p2.ent_body_handles = ps.ent_body_handles ∧
      p2.bodies.next_handle = ps.bodies.next_handle ∧
      (∀ h, ((p2.bodies.rigid_body h).isSome = (ps.bodies.rigid_body h).isSome)) ∧
      (∀ h, ps.bodies.get h = none → p2.bodies.get h = none)
  | [], ps, tr, p2, t2 => by
    intro h
    simp only [rbModifiedLoop, Option.some.injEq, Prod.mk.injEq] at h
    rw [← h.1]
    exact ⟨rfl, rfl, fun _ => rfl, fun _ hx => hx⟩
  | e :: rest, ps, tr, p2, t2 => by
    intro h
    rcases e with ⟨id, t, r, c⟩
    cases r with
    | none =>
      simp only [rbModifiedLoop] at h
      exact rbModifiedLoop_state mods rest ps tr p2 t2 h
    | some rigidbody =>
      by_cases hid : id ∈ mods
      · simp only [rbModifiedLoop, hid, if_true] at h
        cases halist : alist_get ps.ent_body_handles id with
        | none =>
          simp only [halist] at h
          exact rbModifiedLoop_state mods rest ps _ p2 t2 h
        | some rb_handle =>
          simp only [halist] at h
          cases hrb : ps.bodies.rigid_body rb_handle with
          | none => simp only [hrb] at h; cases h
          | some rb =>
            simp only [hrb] at h
            obtain ⟨hm, hn, hrs, hnone⟩ := rbModifiedLoop_state mods rest _ _ p2 t2 h
            refine ⟨hm, hn, ?_, ?_⟩
            · intro h3
              rw [hrs h3]
              show ((ps.bodies.set_rigid rb_handle _).rigid_body h3).isSome = _
              simp only [BodySet.rigid_body, BodySet.set_rigid_get]
              by_cases hh : h3 = rb_handle
              · rw [if_pos hh, hh]
                simp only [BodySet.rigid_body] at hrb
                cases hget : ps.bodies.get rb_handle with
                | none => rw [hget] at hrb; cases hrb
                | some obj =>
                  rw [hget] at hrb
                  cases obj with
                  | ground => simp at hrb
                  | rigid rb0 => simp
              · rw [if_neg hh]
            · intro h3 hx
              refine hnone h3 ?_
              show (ps.bodies.set_rigid rb_handle _).get h3 = none
              rw [BodySet.set_rigid_get]
              by_cases hh : h3 = rb_handle
              · rw [if_pos hh, hx]; rfl
              · rw [if_neg hh]; exact hx
      · simp only [rbModifiedLoop, hid, if_false] at h
        exact rbModifiedLoop_state mods rest ps tr p2 t2 h

/-- The state effect of a completed rigidbody transform loop: same footprint
as the modified loop. -/
lemma rbTransformLoop_state (mts : List Nat) :
    ∀ (w : World) (ps : PhysicsState) (tr : List SendEvent)
      (p2 : PhysicsState) (t2 : List SendEvent),
      rbTransformLoop mts w ps tr = some (p2, t2) →
      p2.ent_body_handles = ps.ent_body_handles ∧
      p2.bodies.next_handle = ps.bodies.next_handle ∧
      (∀ h, ((p2.bodies.rigid_body h).isSome = (ps.bodies.rigid_body h).isSome)) ∧
      (∀ h, ps.bodies.get h = none → p2.bodies.get h = none)
  | [], ps, tr, p2, t2 => by
    intro h
    simp only [rbTransformLoop, Option.some.injEq, Prod.mk.injEq] at h
    rw [← h.1]
    exact ⟨rfl, rfl, fun _ => rfl, fun _ hx => hx⟩
  | e :: rest, ps, tr, p2, t2 => by
    intro h
    rcases e with ⟨id, t, r, c⟩
    cases t with
    | none =>
      simp only [rbTransformLoop] at h
      exact rbTransformLoop_state mts rest ps tr p2 t2 h
    | some transform =>
      cases r with
      | none =>
        simp only [rbTransformLoop] at h
        exact rbTransformLoop_state mts rest ps tr p2 t2 h
      | some rigidbody =>
        by_cases hid : id ∈ mts
        · simp only [rbTransformLoop, hid, if_true] at h
          cases halist : alist_get ps.ent_body_handles id with
          | none =>
            simp only [halist] at h
            exact rbTransformLoop_state mts rest ps _ p2 t2 h
          | some rb_handle =>
            simp only [halist] at h
            cases hrb : ps.bodies.rigid_body rb_handle with
            | none => simp only [hrb] at h; cases h
            | some rb =>
              simp only [hrb] at h
              obtain ⟨hm, hn, hrs, hnone⟩ := rbTransformLoop_state mts rest _ _ p2 t2 h
              refine ⟨hm, hn, ?_, ?_⟩
              · intro h3
                rw [hrs h3]
                show ((ps.bodies.set_rigid rb_handle _).rigid_body h3).isSome = _
                simp only [BodySet.rigid_body, BodySet.set_rigid_get]
                by_cases hh : h3 = rb_handle
                · rw [if_pos hh, hh]
                  simp only [BodySet.rigid_body] at hrb
                  cases hget : ps.bodies.get rb_handle with
                  | none => rw [hget] at hrb; cases hrb
                  | some obj =>
                    rw [hget] at hrb
                    cases obj with
                    | ground => simp at hrb
                    | rigid rb0 => simp
                · rw [if_neg hh]
              · intro h3 hx
                refine hnone h3 ?_
                show (ps.bodies.set_rigid rb_handle _).get h3 = none
                rw [BodySet.set_rigid_get]
                by_cases hh : h3 = rb_handle
                · rw [if_pos hh, hx]; rfl
                · rw [if_neg hh]; exact hx
        · simp only [rbTransformLoop, hid, if_false] at h
          exact rbTransformLoop_state mts rest ps tr p2 t2 h

/-- A completed collider send run never touches the body arena or the
entity-to-body map (or the store). -/
lemma colliderSendRun_bodies (evT evC : List ComponentEvent) (w : World)
    (ps : PhysicsState) (o : ColliderSendOut)
    (hrun : colliderSendRun evT evC w ps = some o) :
    o.physics.ent_body_handles = ps.ent_body_handles ∧
    o.physics.bodies = ps.bodies := by
  have hInsStep : ∀ (ps2 : PhysicsState) (e : EntityRec),
      (colliderInsertStep (processComponentEvents evC).1 ps2 e).1.ent_body_handles =
        ps2.ent_body_handles ∧
      (colliderInsertStep (processComponentEvents evC).1 ps2 e).1.bodies = ps2.bodies := by
    intro ps2 e
    rcases e with ⟨id, t, r, c⟩
    cases t with
    | none => simp [colliderInsertStep]
    | some transform =>
      cases c with
      | none => simp [colliderInsertStep]
      | some collider =>
        by_cases hins : id ∈ (processComponentEvents evC).1
        · simp only [colliderInsertStep, hins, if_true, hm_remove]
          cases alist_get ps2.ent_collider_handles id <;>
            cases alist_get ps2.ent_body_handles id <;> simp
        · simp [colliderInsertStep, hins]
  have hIns : ∀ (w2 : World) (ps2 : PhysicsState),
      (colliderInsertLoop (processComponentEvents evC).1 w2 ps2).1.ent_body_handles =
        ps2.ent_body_handles ∧
      (colliderInsertLoop (processComponentEvents evC).1 w2 ps2).1.bodies = ps2.bodies := by
    intro w2
    induction w2 with
    | nil => exact fun ps2 => ⟨rfl, rfl⟩
    | cons e rest ih =>
      intro ps2
      simp only [colliderInsertLoop]
      obtain ⟨h1, h2⟩ := hInsStep ps2 e
      obtain ⟨h3, h4⟩ := ih (colliderInsertStep (processComponentEvents evC).1 ps2 e).1
      exact ⟨h3.trans h1, h4.trans h2⟩
  have hMod : ∀ (w2 : World) (ps2 : PhysicsState) (tr : List SendEvent),
      (colliderModifiedLoop (processComponentEvents evC).2.1 w2 ps2 tr).1.ent_body_handles =
        ps2.ent_body_handles ∧
      (colliderModifiedLoop (processComponentEvents evC).2.1 w2 ps2 tr).1.bodies =
        ps2.bodies := by
    intro w2
    induction w2 with
    | nil => exact fun ps2 tr => ⟨rfl, rfl⟩
    | cons e rest ih =>
      intro ps2 tr
      rcases e with ⟨id, t, r, c⟩
      cases c with
      | none => simp only [colliderModifiedLoop]; exact ih ps2 tr
      | some collider =>
        by_cases hid : id ∈ (processComponentEvents evC).2.1
        · simp only [colliderModifiedLoop, hid, if_true]
          cases alist_get ps2.ent_collider_handles id <;> exact ih ps2 _
        · simp only [colliderModifiedLoop, hid, if_false]
          exact ih ps2 tr
  have hRem : ∀ (w2 : World) (ps2 : PhysicsState) (tr : List SendEvent),
      (colliderRemovedLoop (processComponentEvents evC).2.2 w2 ps2 tr).1.ent_body_handles =
        ps2.ent_body_handles ∧
      (colliderRemovedLoop (processComponentEvents evC).2.2 w2 ps2 tr).1.bodies =
        ps2.bodies := by
    intro w2
    induction w2 with
    | nil => exact fun ps2 tr => ⟨rfl, rfl⟩
    | cons e rest ih =>
      intro ps2 tr
      by_cases hid : e.id ∈ (processComponentEvents evC).2.2
      · simp only [colliderRemovedLoop, hid, if_true, hm_remove]
        cases alist_get ps2.ent_collider_handles e.id with
        | none => exact ih ps2 _
        | some collider_handle =>
          obtain ⟨h1, h2⟩ := ih { ps2 with
            ent_collider_handles := alist_erase ps2.ent_collider_handles e.id
            colliders := ps2.colliders.remove collider_handle } _
          exact ⟨h1, h2⟩
      · simp only [colliderRemovedLoop, hid, if_false]
        exact ih ps2 tr
  have hTrs : ∀ (w2 : World) (ps2 : PhysicsState) (tr : List SendEvent)
      (p2 : PhysicsState) (t2 : List SendEvent),
      colliderTransformLoop (processTransformEvents evT) w2 ps2 tr = some (p2, t2) →
      p2.ent_body_handles = ps2.ent_body_handles ∧ p2.bodies = ps2.bodies := by
    intro w2
    induction w2 with
    | nil =>
      intro ps2 tr p2 t2 h
      simp only [colliderTransformLoop, Option.some.injEq, Prod.mk.injEq] at h
      rw [← h.1]
      exact ⟨rfl, rfl⟩
    | cons e rest ih =>
      intro ps2 tr p2 t2 h
      rcases e with ⟨id, t, r, c⟩
      cases t with
      | none =>
        cases r with
        | none =>
          cases c with
          | none => simp only [colliderTransformLoop] at h; exact ih ps2 tr p2 t2 h
          | some collider => simp only [colliderTransformLoop] at h; exact ih ps2 tr p2 t2 h
        | some rigidbody => simp only [colliderTransformLoop] at h; exact ih ps2 tr p2 t2 h
      | some transform =>
        cases r with
        | some rigidbody => simp only [colliderTransformLoop] at h; exact ih ps2 tr p2 t2 h
        | none =>
          cases c with
          | none => simp only [colliderTransformLoop] at h; exact ih ps2 tr p2 t2 h
          | some collider =>
            by_cases hid : id ∈ processTransformEvents evT
            · simp only [colliderTransformLoop, hid, if_true] at h
              cases halist : alist_get ps2.ent_collider_handles id with
              | none =>
                simp only [halist] at h
                exact ih ps2 _ p2 t2 h
              | some collider_handle =>
                simp only [halist] at h
                cases hgc : ps2.colliders.get collider_handle with
                | none => simp only [hgc] at h; cases h
                | some cobj =>
                  simp only [hgc] at h
                  obtain ⟨a1, a2⟩ := ih _ _ p2 t2 h
                  exact ⟨a1, a2⟩
            · simp only [colliderTransformLoop, hid, if_false] at h
              exact ih ps2 tr p2 t2 h
  simp only [colliderSendRun] at hrun
  cases htrs : colliderTransformLoop (processTransformEvents evT) w
      (colliderRemovedLoop (processComponentEvents evC).2.2 w
        (colliderModifiedLoop (processComponentEvents evC).2.1 w
          (colliderInsertLoop (processComponentEvents evC).1 w ps).1
          (colliderInsertLoop (processComponentEvents evC).1 w ps).2).1
        (colliderModifiedLoop (processComponentEvents evC).2.1 w
          (colliderInsertLoop (processComponentEvents evC).1 w ps).1
          (colliderInsertLoop (processComponentEvents evC).1 w ps).2).2).1
      (colliderRemovedLoop (processComponentEvents evC).2.2 w
        (colliderModifiedLoop (processComponentEvents evC).2.1 w
          (colliderInsertLoop (processComponentEvents evC).1 w ps).1
          (colliderInsertLoop (processComponentEvents evC).1 w ps).2).1
        (colliderModifiedLoop (processComponentEvents evC).2.1 w
          (colliderInsertLoop (processComponentEvents evC).1 w ps).1
          (colliderInsertLoop (processComponentEvents evC).1 w ps).2).2).2 with
  | none => rw [htrs] at hrun; cases hrun
  | some aTr =>
    rw [htrs] at hrun
    cases hrun
    obtain ⟨u1, u2⟩ := hTrs _ _ _ aTr.1 aTr.2 (by rw [htrs])
    obtain ⟨v1, v2⟩ := hRem w _ _
    obtain ⟨x1, x2⟩ := hMod w _ _
    obtain ⟨y1, y2⟩ := hIns w ps
    exact ⟨((u1.trans v1).trans x1).trans y1, ((u2.trans v2).trans x2).trans y2⟩

/-- Decomposition of a completed outbound sync pass into the two system runs. -/
lemma outboundSync_decompose (evT evR evC : List ComponentEvent) (w : World)
    (ps : PhysicsState) (o : SyncOut)
    (hrun : outboundSync evT evR evC w ps = some o) :
    ∃ o1 o2, rbSendRun evT evR w ps = some o1 ∧
      colliderSendRun evT evC o1.world o1.physics = some o2 ∧
      o = ⟨o2.physics, o1.world, o1.trace ++ o2.trace⟩ := by
  simp only [outboundSync] at hrun
  cases h1 : rbSendRun evT evR w ps with
  | none => simp only [h1] at hrun; cases hrun
  | some o1 =>
    simp only [h1] at hrun
    cases h2 : colliderSendRun evT evC o1.world o1.physics with
    | none => simp only [h2] at hrun; cases hrun
    | some o2 =>
      simp only [h2] at hrun
      exact ⟨o1, o2, rfl, h2, (Option.some.inj hrun).symm⟩

/-- Decomposition of a completed rigidbody send run into its four stages. -/
lemma rbSendRun_decompose (evT evR : List ComponentEvent) (w : World) (ps : PhysicsState)
    (o : RbSendOut) (hrun : rbSendRun evT evR w ps = some o) :
    ∃ aMod aTr,
      rbModifiedLoop (processComponentEvents evR).2.1
        (rbInsertLoop (processComponentEvents evR).1 w ps).2.1
        (rbInsertLoop (processComponentEvents evR).1 w ps).1
        (rbInsertLoop (processComponentEvents evR).1 w ps).2.2 = some aMod ∧
      rbTransformLoop (processTransformEvents evT)
        (rbInsertLoop (processComponentEvents evR).1 w ps).2.1
        (rbRemovedLoop (processComponentEvents evR).2.2
          (rbInsertLoop (processComponentEvents evR).1 w ps).2.1 aMod.1 aMod.2).1
        (rbRemovedLoop (processComponentEvents evR).2.2
          (rbInsertLoop (processComponentEvents evR).1 w ps).2.1 aMod.1 aMod.2).2 =
        some aTr ∧
      o = ⟨aTr.1, (rbInsertLoop (processComponentEvents evR).1 w ps).2.1, aTr.2⟩ := by
  simp only [rbSendRun] at hrun
  cases hmod : rbModifiedLoop (processComponentEvents evR).2.1
      (rbInsertLoop (processComponentEvents evR).1 w ps).2.1
      (rbInsertLoop (processComponentEvents evR).1 w ps).1
      (rbInsertLoop (processComponentEvents evR).1 w ps).2.2 with
  | none => simp only [hmod] at hrun; cases hrun
  | some aMod =>
    simp only [hmod] at hrun
    cases htrs : rbTransformLoop (processTransformEvents evT)
        (rbInsertLoop (processComponentEvents evR).1 w ps).2.1
        (rbRemovedLoop (processComponentEvents evR).2.2
          (rbInsertLoop (processComponentEvents evR).1 w ps).2.1 aMod.1 aMod.2).1
        (rbRemovedLoop (processComponentEvents evR).2.2
          (rbInsertLoop (processComponentEvents evR).1 w ps).2.1 aMod.1 aMod.2).2 with
    | none => simp only [htrs] at hrun; cases hrun
    | some aTr =>
      simp only [htrs] at hrun
      exact ⟨aMod, aTr, rfl, htrs, (Option.some.inj hrun).symm⟩

/-- What the insert loop guarantees for a joined, freshly inserted entity in
a well-formed state: a fresh handle is mapped and stored in the component and
arena, and any stale body for the entity is gone. -/
lemma rbInsertLoop_insert_facts (ins : List Nat) (pre post : World) (e : EntityRec)
    (transform : TransformComponent) (rigidbody : RigidbodyComponent)
    (ps0 : PhysicsState) (hwf : PhysWF ps0)
    (hpre : ∀ e2 ∈ pre, e2.id ≠ e.id) (hpost : ∀ e2 ∈ post, e2.id ≠ e.id)
    (ht : e.transform = some transform) (hr : e.rigidbody = some rigidbody)
    (hins : e.id ∈ ins) :
    ∃ h2,
      alist_get (rbInsertLoop ins (pre ++ e :: post) ps0).1.ent_body_handles e.id =
        some h2 ∧
      (rbInsertLoop ins (pre ++ e :: post) ps0).1.bodies.rigid_body h2 =
        some (buildRigidBody transform rigidbody e.id) ∧
      (∃ pre2 post2,
        (rbInsertLoop ins (pre ++ e :: post) ps0).2.1 =
          pre2 ++ { e with rigidbody := some { rigidbody with handle := some h2 } } :: post2) ∧
      PhysWF (rbInsertLoop ins (pre ++ e :: post) ps0).1 ∧
      (∀ h_old, alist_get ps0.ent_body_handles e.id = some h_old →
        h2 ≠ h_old ∧ (rbInsertLoop ins (pre ++ e :: post) ps0).1.bodies.get h_old = none) := by
  obtain ⟨psA, wA, trA, hA⟩ :
      ∃ psA wA trA, rbInsertLoop ins pre ps0 = (psA, wA, trA) := ⟨_, _, _, rfl⟩
  obtain ⟨psS, eS, trS, hS⟩ :
      ∃ psS eS trS, rbInsertStep ins psA e = (psS, eS, trS) := ⟨_, _, _, rfl⟩
  obtain ⟨psB, wB, trB, hB⟩ :
      ∃ psB wB trB, rbInsertLoop ins post psS = (psB, wB, trB) := ⟨_, _, _, rfl⟩
  have hwfA := rbInsertLoop_wf ins pre ps0 hwf
  rw [hA] at hwfA
  dsimp only at hwfA
  have hself := rbInsertStep_self ins psA e transform rigidbody hwfA.1 ht hr hins
  rw [hS] at hself
  dsimp only at hself
  have hwfS := rbInsertStep_wf ins psA e hwfA.1
  rw [hS] at hwfS
  dsimp only at hwfS
  have hwfB := rbInsertLoop_wf ins post psS hwfS.1
  rw [hB] at hwfB
  dsimp only at hwfB
  have hloop : rbInsertLoop ins (pre ++ e :: post) ps0 =
      (psB, wA ++ eS :: wB, trA ++ (trS ++ trB)) := by
    rw [rbInsertLoop_append ins pre (e :: post) ps0, hA]
    simp only [rbInsertLoop, hS, hB]
  have hpresB := rbInsertLoop_preserve ins e.id psA.bodies.next_handle post psS hwfS.1
    hpost hself.1
  rw [hB] at hpresB
  dsimp only at hpresB
  refine ⟨psA.bodies.next_handle, ?_, ?_, ?_, ?_, ?_⟩
  · rw [hloop]
    exact hpresB.1
  · rw [hloop]
    show BodySet.rigid_body psB.bodies psA.bodies.next_handle = _
    have h21 := hself.2.1
    simp only [BodySet.rigid_body] at h21 ⊢
    rw [hpresB.2]
    exact h21
  · rw [hloop]
    exact ⟨wA, wB, by dsimp only; rw [hself.2.2.1]⟩
  · rw [hloop]
    exact hwfB.1
  · intro h_old hold
    have hpresA := rbInsertLoop_preserve ins e.id h_old pre ps0 hwf hpre hold
    rw [hA] at hpresA
    dsimp only at hpresA
    obtain ⟨hgone, hne⟩ := hself.2.2.2.2 h_old hpresA.1
    have hltA : h_old < psA.bodies.next_handle :=
      physwf_val_lt psA hwfA.1 e.id h_old hpresA.1
    have hltS : h_old < psS.bodies.next_handle := by
      rw [hself.2.2.2.1]
      exact Nat.lt_succ_of_lt hltA
    have hnoneB := rbInsertLoop_get_none ins h_old post psS hwfS.1 hltS hgone
    rw [hB] at hnoneB
    dsimp only at hnoneB
    rw [hloop]
    exact ⟨hne, hnoneB⟩

/-- C4 (amended): for an alive entity carrying both a Transform and a
Rigidbody whose Rigidbody is newly inserted (and not also removed) this tick,
a completed outbound sync ends with a solver body for it, a map entry, and a
`Some` handle in the component; a duplicate insert first removes the stale
solver body (the old handle resolves to nothing afterwards and the new handle
differs); the body created by the insert loop is exactly `buildRigidBody`,
whose translation is the Transform position scaled by `WORLD_UNIT_RATIO`.
(As stated the claim is false - an inserted Rigidbody on an entity without a
Transform is skipped entirely, see the counterexample.) -/
theorem rigidbody_insert_registers_amended
    (transform_events rigidbody_events collider_events : List ComponentEvent)
    (pre post : World) (e : EntityRec)
    (transform : TransformComponent) (rigidbody : RigidbodyComponent)
    (ps0 : PhysicsState) (o : SyncOut)
    (hwf : PhysWF ps0)
    (hnodup : ((pre ++ e :: post).map EntityRec.id).Nodup)
    (ht : e.transform = some transform) (hr : e.rigidbody = some rigidbody)
    (hins : e.id ∈ (processComponentEvents rigidbody_events).1)
    (hnotrem : e.id ∉ (processComponentEvents rigidbody_events).2.2)
    (hrun : outboundSync transform_events rigidbody_events collider_events
      (pre ++ e :: post) ps0 = some o) :
    ∃ h2,
      alist_get o.physics.ent_body_handles e.id = some h2 ∧
      (o.physics.bodies.rigid_body h2).isSome = true ∧
      (∃ pre2 post2, o.world = pre2 ++
        { e with rigidbody := some { rigidbody with handle := some h2 } } :: post2) ∧
      (rbInsertLoop (processComponentEvents rigidbody_events).1 (pre ++ e :: post)
          ps0).1.bodies.rigid_body h2 =
        some (buildRigidBody transform rigidbody e.id) ∧
      (buildRigidBody transform rigidbody e.id).position.translation =
        transform.position.smul WORLD_UNIT_RATIO ∧
      (∀ h_old, alist_get ps0.ent_body_handles e.id = some h_old →
        h2 ≠ h_old ∧ o.physics.bodies.get h_old = none) := by
  have hnodup2 := hnodup
  rw [List.map_append, List.map_cons, List.nodup_append] at hnodup2
  have hpre : ∀ e2 ∈ pre, e2.id ≠ e.id := fun e2 he2 hx =>
    hnodup2.2.2 (List.mem_map_of_mem EntityRec.id he2) (hx ▸ List.mem_cons_self _ _)
  have hpost : ∀ e2 ∈ post, e2.id ≠ e.id := fun e2 he2 hx =>
    (List.nodup_cons.mp hnodup2.2.1).1 (hx ▸ List.mem_map_of_mem EntityRec.id he2)
  obtain ⟨o1, o2, h1, h2run, ho⟩ :=
    outboundSync_decompose transform_events rigidbody_events collider_events
      (pre ++ e :: post) ps0 o hrun
  obtain ⟨aMod, aTr, hmod, htrs, ho1⟩ :=
    rbSendRun_decompose transform_events rigidbody_events (pre ++ e :: post) ps0 o1 h1
  obtain ⟨h2, hmapI, hrbI, hworldI, hwfI, holdI⟩ :=
    rbInsertLoop_insert_facts (processComponentEvents rigidbody_events).1 pre post e
      transform rigidbody ps0 hwf hpre hpost ht hr hins
  obtain ⟨hmMap, hmNext, hmRs, hmNone⟩ :=
    rbModifiedLoop_state (processComponentEvents rigidbody_events).2.1
      (rbInsertLoop (processComponentEvents rigidbody_events).1 (pre ++ e :: post) ps0).2.1
      (rbInsertLoop (processComponentEvents rigidbody_events).1 (pre ++ e :: post) ps0).1
      (rbInsertLoop (processComponentEvents rigidbody_events).1 (pre ++ e :: post) ps0).2.2
      aMod.1 aMod.2 (by rw [hmod])
  have hpwMod : List.Pairwise (fun p q => p.2 ≠ q.2) aMod.1.ent_body_handles := by
    rw [hmMap]; exact hwfI.2.1
  have hmap2 : alist_get aMod.1.ent_body_handles e.id = some h2 := by
    rw [hmMap]; exact hmapI
  obtain ⟨hRmap, hRbody⟩ :=
    rbRemovedLoop_preserve (processComponentEvents rigidbody_events).2.2 e.id h2
      (rbInsertLoop (processComponentEvents rigidbody_events).1 (pre ++ e :: post) ps0).2.1
      aMod.1 aMod.2 hpwMod (fun _ _ _ => hnotrem) hmap2
  obtain ⟨htMap, htNext, htRs, htNone⟩ :=
    rbTransformLoop_state (processTransformEvents transform_events)
      (rbInsertLoop (processComponentEvents rigidbody_events).1 (pre ++ e :: post) ps0).2.1
      (rbRemovedLoop (processComponentEvents rigidbody_events).2.2
        (rbInsertLoop (processComponentEvents rigidbody_events).1 (pre ++ e :: post) ps0).2.1
        aMod.1 aMod.2).1
      (rbRemovedLoop (processComponentEvents rigidbody_events).2.2
        (rbInsertLoop (processComponentEvents rigidbody_events).1 (pre ++ e :: post) ps0).2.1
        aMod.1 aMod.2).2
      aTr.1 aTr.2 (by rw [htrs])
  obtain ⟨hcMap, hcBodies⟩ :=
    colliderSendRun_bodies transform_events collider_events o1.world o1.physics o2 h2run
  subst ho
  subst ho1
  dsimp only at hcMap hcBodies ⊢
  refine ⟨h2, ?_, ?_, ?_, hrbI, rfl, ?_⟩
  · rw [hcMap, htMap, hRmap]
  · rw [hcBodies, htRs h2]
    have hre : (rbRemovedLoop (processComponentEvents rigidbody_events).2.2
        (rbInsertLoop (processComponentEvents rigidbody_events).1 (pre ++ e :: post) ps0).2.1
        aMod.1 aMod.2).1.bodies.rigid_body h2 = aMod.1.bodies.rigid_body h2 := by
      simp only [BodySet.rigid_body]
      rw [hRbody]
    rw [hre, hmRs h2, hrbI]
    rfl
  · exact hworldI
  · intro h_old hold
    obtain ⟨hne, hnoneI⟩ := holdI h_old hold
    refine ⟨hne, ?_⟩
    rw [hcBodies]
    refine htNone h_old ?_
    refine rbRemovedLoop_body_none (processComponentEvents rigidbody_events).2.2 h_old
      (rbInsertLoop (processComponentEvents rigidbody_events).1 (pre ++ e :: post) ps0).2.1
      aMod.1 aMod.2 ?_
    exact hmNone h_old hnoneI

/-- The removed loop splits across list append. -/
lemma rbRemovedLoop_append (rems : List Nat) :
    ∀ (xs ys : World) (ps : PhysicsState) (tr : List SendEvent),
      rbRemovedLoop rems (xs ++ ys) ps tr =
        rbRemovedLoop rems ys (rbRemovedLoop rems xs ps tr).1
          (rbRemovedLoop rems xs ps tr).2
  | [], ys, ps, tr => by simp [rbRemovedLoop]
  | x :: xs, ys, ps, tr => by
    by_cases hid : x.id ∈ rems
    · simp only [List.cons_append, rbRemovedLoop, hid, if_true, hm_remove]
      cases alist_get ps.ent_body_handles x.id with
      | none => exact rbRemovedLoop_append rems xs ys ps _
      | some rb_handle => exact rbRemovedLoop_append rems xs ys _ _
    · simp only [List.cons_append, rbRemovedLoop, hid, if_false]
      exact rbRemovedLoop_append rems xs ys ps tr

/-- The removed loop does not touch the map entry of an id that appears
nowhere in the processed list. -/
lemma rbRemovedLoop_map_other (rems : List Nat) (k : Nat) :
    ∀ (w : World) (ps : PhysicsState) (tr : List SendEvent),
      (∀ e2 ∈ w, e2.id ≠ k) →
      alist_get (rbRemovedLoop rems w ps tr).1.ent_body_handles k =
        alist_get ps.ent_body_handles k
  | [], _, _ => fun _ => rfl
  | e :: rest, ps, tr => fun hids => by
    have hrec := fun (ps2 : PhysicsState) (tr2 : List SendEvent) =>
      rbRemovedLoop_map_other rems k rest ps2 tr2
        (fun e2 he2 => hids e2 (List.mem_cons_of_mem e he2))
    by_cases hid : e.id ∈ rems
    · simp only [rbRemovedLoop, hid, if_true, hm_remove]
      cases halist : alist_get ps.ent_body_handles e.id with
      | none =>
        simp only [halist]
        exact hrec ps _
      | some rb_handle =>
        simp only [halist]
        rw [hrec _ _]
        show alist_get (alist_erase ps.ent_body_handles e.id) k = _
        exact alist_get_erase_ne _ _ _
          (fun hx => hids e (List.mem_cons_self e rest) hx.symm)
    · simp only [rbRemovedLoop, hid, if_false]
      exact hrec ps tr

/-- The store produced by the insert loop, split at a chosen entity. -/
lemma rbInsertLoop_split (ins : List Nat) (pre post : World) (e : EntityRec)
    (ps0 : PhysicsState) :
    (rbInsertLoop ins (pre ++ e :: post) ps0).2.1 =
      (rbInsertLoop ins pre ps0).2.1 ++
        (rbInsertStep ins (rbInsertLoop ins pre ps0).1 e).2.1 ::
        (rbInsertLoop ins post (rbInsertStep ins (rbInsertLoop ins pre ps0).1 e).1).2.1 ∧
    (rbInsertLoop ins (pre ++ e :: post) ps0).1 =
      (rbInsertLoop ins post (rbInsertStep ins (rbInsertLoop ins pre ps0).1 e).1).1 := by
  rw [rbInsertLoop_append]
  constructor <;> simp [rbInsertLoop]

/-- C5 (amended): for an entity still alive in the store whose Rigidbody is
removed this tick, after a completed outbound sync the entity-to-body mapping
no longer resolves and the previously mapped solver body is gone; and on an
entity with no mapping, the removal step reports the condition and leaves the
physics state untouched.  (As stated the claim is false for entities already
deleted from the store - see the counterexample.) -/
theorem rigidbody_removal_amended
    (transform_events rigidbody_events collider_events : List ComponentEvent)
    (pre post : World) (e : EntityRec) (ps0 : PhysicsState) (o : SyncOut)
    (hwf : PhysWF ps0)
    (hnodup : ((pre ++ e :: post).map EntityRec.id).Nodup)
    (hrem : e.id ∈ (processComponentEvents rigidbody_events).2.2)
    (hrun : outboundSync transform_events rigidbody_events collider_events
      (pre ++ e :: post) ps0 = some o) :
    alist_get o.physics.ent_body_handles e.id = none ∧
    (∀ h_old, alist_get ps0.ent_body_handles e.id = some h_old →
      o.physics.bodies.get h_old = none) ∧
    (∀ (ps : PhysicsState) (tr : List SendEvent) (w2 : World),
      alist_get ps.ent_body_handles e.id = none →
      rbRemovedLoop (processComponentEvents rigidbody_events).2.2 (e :: w2) ps tr =
        rbRemovedLoop (processComponentEvents rigidbody_events).2.2 w2 ps
          (tr ++ [SendEvent.removeMissing e.id])) := by
  have hnodup2 := hnodup
  rw [List.map_append, List.map_cons, List.nodup_append] at hnodup2
  have hpre : ∀ e2 ∈ pre, e2.id ≠ e.id := fun e2 he2 hx =>
    hnodup2.2.2 (List.mem_map_of_mem EntityRec.id he2) (hx ▸ List.mem_cons_self _ _)
  have hpost : ∀ e2 ∈ post, e2.id ≠ e.id := fun e2 he2 hx =>
    (List.nodup_cons.mp hnodup2.2.1).1 (hx ▸ List.mem_map_of_mem EntityRec.id he2)
  obtain ⟨o1, o2, h1, h2run, ho⟩ :=
    outboundSync_decompose transform_events rigidbody_events collider_events
      (pre ++ e :: post) ps0 o hrun
  obtain ⟨aMod, aTr, hmod, htrs, ho1⟩ :=
    rbSendRun_decompose transform_events rigidbody_events (pre ++ e :: post) ps0 o1 h1
  obtain ⟨hsplitW, hsplitPs⟩ :=
    rbInsertLoop_split (processComponentEvents rigidbody_events).1 pre post e ps0
  obtain ⟨hmMap, hmNext, hmRs, hmNone⟩ :=
    rbModifiedLoop_state (processComponentEvents rigidbody_events).2.1
      (rbInsertLoop (processComponentEvents rigidbody_events).1 (pre ++ e :: post) ps0).2.1
      (rbInsertLoop (processComponentEvents rigidbody_events).1 (pre ++ e :: post) ps0).1
      (rbInsertLoop (processComponentEvents rigidbody_events).1 (pre ++ e :: post) ps0).2.2
      aMod.1 aMod.2 (by rw [hmod])
  obtain ⟨htMap, htNext, htRs, htNone⟩ :=
    rbTransformLoop_state (processTransformEvents transform_events)
      (rbInsertLoop (processComponentEvents rigidbody_events).1 (pre ++ e :: post) ps0).2.1
      (rbRemovedLoop (processComponentEvents rigidbody_events).2.2
        (rbInsertLoop (processComponentEvents rigidbody_events).1 (pre ++ e :: post) ps0).2.1
        aMod.1 aMod.2).1
      (rbRemovedLoop (processComponentEvents rigidbody_events).2.2
        (rbInsertLoop (processComponentEvents rigidbody_events).1 (pre ++ e :: post) ps0).2.1
        aMod.1 aMod.2).2
      aTr.1 aTr.2 (by rw [htrs])
  obtain ⟨hcMap, hcBodies⟩ :=
    colliderSendRun_bodies transform_events collider_events o1.world o1.physics o2 h2run
  have hwfI := rbInsertLoop_wf (processComponentEvents rigidbody_events).1
    (pre ++ e :: post) ps0 hwf
  -- Ids of the split store parts.
  have hidsA : ∀ e2 ∈ (rbInsertLoop (processComponentEvents rigidbody_events).1 pre
      ps0).2.1, e2.id ≠ e.id := by
    intro e2 he2 hx
    have : e2.id ∈ ((rbInsertLoop (processComponentEvents rigidbody_events).1 pre
        ps0).2.1.map EntityRec.id) := List.mem_map_of_mem _ he2
    rw [rbInsertLoop_ids] at this
    rcases List.mem_map.mp this with ⟨e3, he3, hid3⟩
    exact hpre e3 he3 (hid3.trans hx)
  have hstepS : (rbInsertStep (processComponentEvents rigidbody_events).1
      (rbInsertLoop (processComponentEvents rigidbody_events).1 pre ps0).1 e).2.1.id =
      e.id := by
    rcases e with ⟨id, t, r, c⟩
    cases t with
    | none => simp [rbInsertStep]
    | some transform =>
      cases r with
      | none => simp [rbInsertStep]
      | some rigidbody =>
        by_cases hins : id ∈ (processComponentEvents rigidbody_events).1
        · simp [rbInsertStep, hins, hm_remove]
        · simp [rbInsertStep, hins]
  -- The removed loop erases the mapping for e (whatever it is at that point).
  have hremEnd : ∀ (psW : PhysicsState) (trW : List SendEvent),
      alist_get (rbRemovedLoop (processComponentEvents rigidbody_events).2.2
        (rbInsertLoop (processComponentEvents rigidbody_events).1 (pre ++ e :: post)
          ps0).2.1 psW trW).1.ent_body_handles e.id = none ∧
      (∀ h3, alist_get psW.ent_body_handles e.id = some h3 →
        List.Pairwise (fun p q => p.2 ≠ q.2) psW.ent_body_handles →
        (rbRemovedLoop (processComponentEvents rigidbody_events).2.2
          (rbInsertLoop (processComponentEvents rigidbody_events).1 (pre ++ e :: post)
            ps0).2.1 psW trW).1.bodies.get h3 = none) ∧
      (∀ h3, psW.bodies.get h3 = none →
        (rbRemovedLoop (processComponentEvents rigidbody_events).2.2
          (rbInsertLoop (processComponentEvents rigidbody_events).1 (pre ++ e :: post)
            ps0).2.1 psW trW).1.bodies.get h3 = none) := by
    intro psW trW
    rw [hsplitW, rbRemovedLoop_append]
    refine ⟨?_, ?_, ?_⟩
    · -- the mapping is erased at e's step and stays erased
      set psA2 := (rbRemovedLoop (processComponentEvents rigidbody_events).2.2
        (rbInsertLoop (processComponentEvents rigidbody_events).1 pre ps0).2.1
        psW trW).1 with hpsA2
      simp only [rbRemovedLoop, hstepS, hrem, if_true, hm_remove]
      cases halist : alist_get psA2.ent_body_handles e.id with
      | none =>
        simp only [halist]
        exact rbRemovedLoop_map_none _ _ _ _ _ halist
      | some rb_handle =>
        simp only [halist]
        refine rbRemovedLoop_map_none _ _ _ _ _ ?_
        show alist_get (alist_erase psA2.ent_body_handles e.id) e.id = none
        exact alist_get_erase_self _ _
    · intro h3 hh3 hpw
      obtain ⟨hAk, hAb⟩ := rbRemovedLoop_preserve
        (processComponentEvents rigidbody_events).2.2 e.id h3
        (rbInsertLoop (processComponentEvents rigidbody_events).1 pre ps0).2.1
        psW trW hpw (fun e2 he2 hx => absurd hx (hidsA e2 he2)) hh3
      set psA2 := (rbRemovedLoop (processComponentEvents rigidbody_events).2.2
        (rbInsertLoop (processComponentEvents rigidbody_events).1 pre ps0).2.1
        psW trW).1 with hpsA2
      simp only [rbRemovedLoop, hstepS, hrem, if_true, hm_remove, hAk]
      refine rbRemovedLoop_body_none _ _ _ _ _ ?_
      show (psA2.bodies.remove h3).get h3 = none
      simp only [BodySet.remove, BodySet.get]
      exact alist_get_erase_self _ _
    · intro h3 hh3
      have hAn : (rbRemovedLoop (processComponentEvents rigidbody_events).2.2
          (rbInsertLoop (processComponentEvents rigidbody_events).1 pre ps0).2.1
          psW trW).1.bodies.get h3 = none :=
        rbRemovedLoop_body_none _ _ _ _ _ hh3
      set psA2 := (rbRemovedLoop (processComponentEvents rigidbody_events).2.2
        (rbInsertLoop (processComponentEvents rigidbody_events).1 pre ps0).2.1
        psW trW).1 with hpsA2
      simp only [rbRemovedLoop, hstepS, hrem, if_true, hm_remove]
      cases halist : alist_get psA2.ent_body_handles e.id with
      | none =>
        simp only [halist]
        exact rbRemovedLoop_body_none _ _ _ _ _ hAn
      | some rb_handle =>
        simp only [halist]
        refine rbRemovedLoop_body_none _ _ _ _ _ ?_
        show (psA2.bodies.remove rb_handle).get h3 = none
        simp only [BodySet.remove, BodySet.get]
        by_cases hhr : h3 = rb_handle
        · rw [hhr]; exact alist_get_erase_self _ _
        · rw [alist_get_erase_ne _ _ _ hhr]; exact hAn
  subst ho
  subst ho1
  dsimp only at hcMap hcBodies ⊢
  obtain ⟨hErased, hBodyGone, hNoneKeep⟩ := hremEnd aMod.1 aMod.2
  refine ⟨?_, ?_, ?_⟩
  · rw [hcMap, htMap]
    exact hErased
  · intro h_old hold
    rw [hcBodies]
    refine htNone h_old ?_
    -- Either the insert loop already removed the stale body (duplicate
    -- insert), or the mapping survived to the removal loop, which removes it.
    by_cases hact : e.id ∈ (processComponentEvents rigidbody_events).1 ∧
        e.transform.isSome = true ∧ e.rigidbody.isSome = true
    · obtain ⟨hins, hts, hrs⟩ := hact
      obtain ⟨transform, ht⟩ := Option.isSome_iff_exists.mp hts
      obtain ⟨rigidbody, hr⟩ := Option.isSome_iff_exists.mp hrs
      obtain ⟨h2, _, _, _, _, holdI⟩ :=
        rbInsertLoop_insert_facts (processComponentEvents rigidbody_events).1 pre post e
          transform rigidbody ps0 hwf hpre hpost ht hr hins
      obtain ⟨_, hgone⟩ := holdI h_old hold
      exact hNoneKeep h_old (hmNone h_old hgone)
    · -- the insert step skipped e, so the mapping still holds h_old
      have hskip : rbInsertStep (processComponentEvents rigidbody_events).1
          (rbInsertLoop (processComponentEvents rigidbody_events).1 pre ps0).1 e =
          ((rbInsertLoop (processComponentEvents rigidbody_events).1 pre ps0).1, e, []) := by
        apply rbInsertStep_skip
        by_cases h1a : e.id ∈ (processComponentEvents rigidbody_events).1
        · by_cases h2a : e.transform.isSome = true
          · refine Or.inr (Or.inr ?_)
            cases hrb : e.rigidbody with
            | none => rfl
            | some rb => exact absurd ⟨h1a, h2a, by rw [hrb]; rfl⟩ hact
          · refine Or.inr (Or.inl ?_)
            cases htr : e.transform with
            | none => rfl
            | some tr => exact absurd (by rw [htr]; rfl) h2a
        · exact Or.inl h1a
      have hwfA := rbInsertLoop_wf (processComponentEvents rigidbody_events).1 pre ps0 hwf
      obtain ⟨hkA, hbA⟩ := rbInsertLoop_preserve
        (processComponentEvents rigidbody_events).1 e.id h_old pre ps0 hwf hpre hold
      have hkI : alist_get (rbInsertLoop (processComponentEvents rigidbody_events).1
          (pre ++ e :: post) ps0).1.ent_body_handles e.id = some h_old := by
        rw [hsplitPs, hskip]
        obtain ⟨hkB, _⟩ := rbInsertLoop_preserve
          (processComponentEvents rigidbody_events).1 e.id h_old post
          (rbInsertLoop (processComponentEvents rigidbody_events).1 pre ps0).1
          hwfA.1 hpost hkA
        exact hkB
      have hmap2 : alist_get aMod.1.ent_body_handles e.id = some h_old := by
        rw [hmMap]; exact hkI
      have hpwMod : List.Pairwise (fun p q => p.2 ≠ q.2) aMod.1.ent_body_handles := by
        rw [hmMap]; exact hwfI.1.2.1
      exact hBodyGone h_old hmap2 hpwMod
  · intro ps tr w2 hnone
    simp only [rbRemovedLoop, hrem, if_true, hm_remove, hnone]

/-- C4 (counterexample): a Rigidbody inserted on an alive entity that has no
Transform Component is skipped by the insert loop - at the end of outbound
sync there is no map entry, and the component's `handle` is still `None`. -/
theorem rigidbody_insert_without_transform_counterexample :
    ∃ o, outboundSync [] [ComponentEvent.Inserted 0] []
      [⟨0, none, some sampleRbNone, none⟩] PhysicsState.new = some o ∧
      alist_get o.physics.ent_body_handles 0 = none ∧
      o.world = [⟨0, none, some sampleRbNone, none⟩] ∧
      sampleRbNone.handle = none :=
  ⟨⟨PhysicsState.new, [⟨0, none, some sampleRbNone, none⟩], []⟩, rfl, rfl, rfl, rfl⟩

/-- Witness for the amended C4 on the sample insertion pass. -/
theorem rigidbody_insert_registers_witness :
    ∃ h2,
      alist_get sampleSyncOut.physics.ent_body_handles 0 = some h2 ∧
      (sampleSyncOut.physics.bodies.rigid_body h2).isSome = true ∧
      (∃ pre2 post2, sampleSyncOut.world = pre2 ++
        ({ EntityRec.mk 0 (some ⟨⟨224, 256⟩, ⟨3, 4⟩, ⟨0, 0⟩, ⟨1, 1⟩⟩)
            (some ⟨none, ⟨⟨1, 2⟩, 0⟩, ⟨⟨0, 0⟩, 0⟩, 0, 1, BodyStatus.Dynamic⟩) none with
          rigidbody := some { RigidbodyComponent.mk none ⟨⟨1, 2⟩, 0⟩ ⟨⟨0, 0⟩, 0⟩ 0 1
            BodyStatus.Dynamic with handle := some h2 } }) :: post2) ∧
      (rbInsertLoop (processComponentEvents [ComponentEvent.Inserted 0]).1
          ([] ++ (⟨0, some ⟨⟨224, 256⟩, ⟨3, 4⟩, ⟨0, 0⟩, ⟨1, 1⟩⟩,
            some ⟨none, ⟨⟨1, 2⟩, 0⟩, ⟨⟨0, 0⟩, 0⟩, 0, 1, BodyStatus.Dynamic⟩,
            none⟩ : EntityRec) :: []) PhysicsState.new).1.bodies.rigid_body h2 =
        some (buildRigidBody ⟨⟨224, 256⟩, ⟨3, 4⟩, ⟨0, 0⟩, ⟨1, 1⟩⟩
          ⟨none, ⟨⟨1, 2⟩, 0⟩, ⟨⟨0, 0⟩, 0⟩, 0, 1, BodyStatus.Dynamic⟩ 0) ∧
      (buildRigidBody ⟨⟨224, 256⟩, ⟨3, 4⟩, ⟨0, 0⟩, ⟨1, 1⟩⟩
          ⟨none, ⟨⟨1, 2⟩, 0⟩, ⟨⟨0, 0⟩, 0⟩, 0, 1, BodyStatus.Dynamic⟩ 0).position.translation =
        (Vec2.mk 224 256).smul WORLD_UNIT_RATIO ∧
      (∀ h_old, alist_get PhysicsState.new.ent_body_handles 0 = some h_old →
        h2 ≠ h_old ∧ sampleSyncOut.physics.bodies.get h_old = none) :=
  rigidbody_insert_registers_amended [ComponentEvent.Inserted 0] [ComponentEvent.Inserted 0]
    [] [] []
    ⟨0, some ⟨⟨224, 256⟩, ⟨3, 4⟩, ⟨0, 0⟩, ⟨1, 1⟩⟩,
      some ⟨none, ⟨⟨1, 2⟩, 0⟩, ⟨⟨0, 0⟩, 0⟩, 0, 1, BodyStatus.Dynamic⟩, none⟩
    ⟨⟨224, 256⟩, ⟨3, 4⟩, ⟨0, 0⟩, ⟨1, 1⟩⟩
    ⟨none, ⟨⟨1, 2⟩, 0⟩, ⟨⟨0, 0⟩, 0⟩, 0, 1, BodyStatus.Dynamic⟩
    PhysicsState.new sampleSyncOut
    (by unfold PhysWF; decide) (by decide) rfl rfl (by decide) (by decide) rfl

/-- C5 (counterexample): entity 5 is already dead (absent from the store) but
still mapped; draining its `Removed` event leaves the stale mapping and the
solver body in place, because the removal loop joins over alive entities
only. -/
theorem removed_dead_entity_counterexample :
    ∃ o, outboundSync [] [ComponentEvent.Removed 5] [] [] stalePhys = some o ∧
      alist_get o.physics.ent_body_handles 5 = some 1 ∧
      (o.physics.bodies.rigid_body 1).isSome = true :=
  ⟨⟨stalePhys, [], []⟩, rfl, rfl, rfl⟩

/-- Witness for the amended C5 on the sample removal pass. -/
theorem rigidbody_removal_witness :
    alist_get removalSyncOut.physics.ent_body_handles 0 = none ∧
    (∀ h_old, alist_get mappedPhys.ent_body_handles 0 = some h_old →
      removalSyncOut.physics.bodies.get h_old = none) ∧
    (∀ (ps : PhysicsState) (tr : List SendEvent) (w2 : World),
      alist_get ps.ent_body_handles 0 = none →
      rbRemovedLoop (processComponentEvents [ComponentEvent.Removed 0]).2.2
        (sampleEnt0 :: w2) ps tr =
        rbRemovedLoop (processComponentEvents [ComponentEvent.Removed 0]).2.2 w2 ps
          (tr ++ [SendEvent.removeMissing 0])) :=
  rigidbody_removal_amended [] [ComponentEvent.Removed 0] [] [] []
    sampleEnt0 mappedPhys removalSyncOut
    (by unfold PhysWF; decide) (by decide) (by decide) rfl

end Brick
